import Mathlib

/-!
Shallow embedding of the visflow dataflow-diagram engine.

The mutator operations are translated from
`src/client/src/store/dataflow/helper.ts`; the pointer-interaction state
machine is translated from the legacy interaction manager
(`src/unnamed/part_000`).  The Node/Port/Edge component classes, the
connectivity checker, and the propagation engine are repository code that is
not part of the given sources; they are modelled from the specification
(each such definition carries a `Modelled from the spec:` doc comment).

External side effects (propagation requests, user-facing warning messages,
calls into the rendering canvas and the selection manager) are embedded as
event logs carried inside the state, so that theorems can speak about which
effects an operation triggered and in which order.
-/

namespace Visflow

/-- A reference to a port: the owning node's id, the port's id, and the
port's direction.  Direction is intrinsic to a port in the source (a port
object is either an `InputPort` or an `OutputPort`), so it travels with the
reference. -/
structure PortRef where
  nodeId : String
  portId : String
  isInput : Bool
deriving DecidableEq

/-- Modelled from the spec: the shape of one port as supplied by the
node-type registry — id, type/compatibility tag, and capacity policy
(single- vs multi-connection). -/
structure PortDef where
  portId : String
  dataType : String
  multiple : Bool
deriving DecidableEq

/-- A port: its definition data plus the ids of its incident edges
(weak references into the diagram's edge arena). -/
structure Port where
  portId : String
  dataType : String
  multiple : Bool
  incidentEdges : List Nat
deriving DecidableEq

/-- The skeleton of a port (everything except the incident-edge list). -/
def portSkel (p : Port) : PortDef :=
  { portId := p.portId, dataType := p.dataType, multiple := p.multiple }

/-- An edge object.  `eid` models JavaScript object identity (edges are
allocated with a globally fresh id); `source` is always meant to be an
output port and `target` an input port. -/
structure Edge where
  eid : Nat
  source : PortRef
  target : PortRef
deriving DecidableEq

/-- A node: id, type tag, layer, diagram-space position, flags, the opaque
type-specific state blob, and the owned ports. -/
structure Node where
  id : String
  nodeType : String
  layer : Nat
  x : Int
  y : Int
  isSelected : Bool
  isActive : Bool
  isPropagationSource : Bool
  stateBlob : String
  inputPorts : List Port
  outputPorts : List Port
deriving DecidableEq

/-- Modelled from the spec: what the node-type registry supplies for one
type tag — the port layout and the propagation-source flag. -/
structure NodeDef where
  inputs : List PortDef
  outputs : List PortDef
  isPropagationSource : Bool

/-- Modelled from the spec: the external collaborators the mutator reaches
through — `getConstructor` (node-type registry, here the port layout per
type tag) and the port-compatibility relation used by the connectivity
check. -/
structure Ctx where
  registry : String → NodeDef
  compatible : String → String → Bool

/-- A recorded propagation request: `propagateNode`/`propagateNodes` take
nodes, `propagatePort` takes a port. -/
inductive PropTarget where
  | node (id : String)
  | port (ref : PortRef)
deriving DecidableEq

/-- The dataflow store state (`DataflowState`), together with the event
logs that model external side effects: `propagated` records propagation
requests, `messages` records user-facing warnings. `edges` is the arena of
live edge objects (the diagram's derived edge set) and `nextEdgeId` the
object-identity counter. -/
structure DataflowState where
  nodes : List Node
  edges : List Edge
  nextEdgeId : Nat
  diagramName : String
  numNodeLayers : Nat
  isDeserializing : Bool
  propagated : List PropTarget
  messages : List String
deriving DecidableEq

/-- Modelled from the spec: `propagateNode` — a propagation request for one
node; a no-op while a diagram is being deserialized. -/
def propagateNode (s : DataflowState) (nid : String) : DataflowState :=
  if s.isDeserializing then s
  else { s with propagated := s.propagated ++ [PropTarget.node nid] }

/-- Modelled from the spec: `propagateNodes` — a batched propagation
request; a no-op while a diagram is being deserialized. -/
def propagateNodes (s : DataflowState) (nids : List String) : DataflowState :=
  if s.isDeserializing then s
  else { s with propagated := s.propagated ++ nids.map PropTarget.node }

/-- Modelled from the spec: `propagatePort` — a propagation request scoped
to a single port; a no-op while a diagram is being deserialized. -/
def propagatePort (s : DataflowState) (r : PortRef) : DataflowState :=
  if s.isDeserializing then s
  else { s with propagated := s.propagated ++ [PropTarget.port r] }

/-- `showSystemMessage(store, text, 'warn')`: record a user-facing warning. -/
def showSystemMessage (s : DataflowState) (text : String) : DataflowState :=
  { s with messages := s.messages ++ [text] }

/-- Node lookup by id (`state.nodes.find(node => node.id === ...)`). -/
def getNode (s : DataflowState) (nid : String) : Option Node :=
  s.nodes.find? (fun n => n.id = nid)

/-- Resolve a port reference to the current port object. -/
def getPort (s : DataflowState) (r : PortRef) : Option Port :=
  (getNode s r.nodeId).bind fun n =>
    (if r.isInput then n.inputPorts else n.outputPorts).find?
      (fun p => p.portId = r.portId)

/-- Apply `f` to the port designated by `r` (models mutation of the live
port object). -/
def updatePort (s : DataflowState) (r : PortRef) (f : Port → Port) :
    DataflowState :=
  { s with
    nodes := s.nodes.map fun n =>
      if n.id = r.nodeId then
        if r.isInput then
          { n with inputPorts := n.inputPorts.map fun p =>
              if p.portId = r.portId then f p else p }
        else
          { n with outputPorts := n.outputPorts.map fun p =>
              if p.portId = r.portId then f p else p }
      else n }

/-- `port.addIncidentEdge(edge)`. -/
def addIncidentEdge (s : DataflowState) (r : PortRef) (eid : Nat) :
    DataflowState :=
  updatePort s r fun p => { p with incidentEdges := p.incidentEdges ++ [eid] }

/-- `port.removeIncidentEdge(edge)` (removal of the edge object from the
port's list; by object identity in the source, by edge id here). -/
def removeIncidentEdge (s : DataflowState) (r : PortRef) (eid : Nat) :
    DataflowState :=
  updatePort s r fun p =>
    { p with incidentEdges := p.incidentEdges.filter (fun x => x ≠ eid) }

/-- Resolve an edge id in the arena. -/
def findEdge (s : DataflowState) (eid : Nat) : Option Edge :=
  s.edges.find? (fun e => e.eid = eid)

/-- The output-side reference of port `p` on node `n`. -/
def outRef (n : Node) (p : Port) : PortRef :=
  { nodeId := n.id, portId := p.portId, isInput := false }

/-- The input-side reference of port `p` on node `n`. -/
def inRef (n : Node) (p : Port) : PortRef :=
  { nodeId := n.id, portId := p.portId, isInput := true }

/-- Modelled from the spec: `node.getOutputEdges()` — the edges incident to
the node's output ports, discovered through port incidence. -/
def getOutputEdges (s : DataflowState) (n : Node) : List Edge :=
  (n.outputPorts.flatMap (fun p => p.incidentEdges)).filterMap (findEdge s)

/-- Modelled from the spec: `node.getAllEdges()` — every edge incident to
any of the node's ports. -/
def getAllEdges (s : DataflowState) (n : Node) : List Edge :=
  ((n.inputPorts ++ n.outputPorts).flatMap (fun p => p.incidentEdges)).filterMap
    (findEdge s)

/-- Modelled from the spec: `node.getOutputNodes()` — the distinct nodes
reached through the node's output edges. -/
def getOutputNodes (s : DataflowState) (n : Node) : List String :=
  ((getOutputEdges s n).map (fun e => e.target.nodeId)).dedup

/-- Result of the connectivity check. -/
structure ConnResult where
  connectable : Bool
  reason : String

/-- Modelled from the spec: `checkEdgeConnectivity` — the pure
compatibility test run before creating an edge.  Fails when the two ports
belong to the same node, when the target input port already has an incident
edge and does not support multiple connections, or when the type tags are
incompatible. -/
def checkEdgeConnectivity (ctx : Ctx) (s : DataflowState)
    (src tgt : PortRef) : ConnResult :=
  if src.nodeId = tgt.nodeId then
    { connectable := false, reason := "cannot connect ports of the same node" }
  else
    match getPort s src, getPort s tgt with
    | some sp, some tp =>
      if tp.incidentEdges ≠ [] ∧ tp.multiple = false then
        { connectable := false
          reason := "target port does not allow multiple connections" }
      else if ctx.compatible sp.dataType tp.dataType = false then
        { connectable := false, reason := "port types are incompatible" }
      else
        { connectable := true, reason := "" }
    | _, _ => { connectable := false, reason := "port not found" }

/-- Options record for edge creation (`{ disableMessage: boolean }`). -/
structure EdgeOptions where
  disableMessage : Bool
deriving DecidableEq

/-- `options && options.disableMessage`. -/
def optDisableMessage (opts : Option EdgeOptions) : Bool :=
  match opts with
  | some o => o.disableMessage
  | none => false

/-- `createEdge`: run the connectivity check; on failure return null and
(unless suppressed) emit the failure reason as a warning; on success build
the edge with direction normalized output→input, link it to both ports,
register it, and if `propagate` recompute the target node. -/
def createEdge (ctx : Ctx) (s : DataflowState) (sourcePort targetPort : PortRef)
    (propagate : Bool) (options : Option EdgeOptions) :
    DataflowState × Option Edge :=
  let connectivity := checkEdgeConnectivity ctx s sourcePort targetPort
  if connectivity.connectable then
    -- always create edge from output port to input port
    let edge : Edge :=
      { eid := s.nextEdgeId
        source := if sourcePort.isInput = false then sourcePort else targetPort
        target := if sourcePort.isInput = false then targetPort else sourcePort }
    let s₁ := addIncidentEdge s sourcePort edge.eid
    let s₂ := addIncidentEdge s₁ targetPort edge.eid
    let s₃ := { s₂ with edges := s₂.edges ++ [edge], nextEdgeId := s₂.nextEdgeId + 1 }
    let s₄ := if propagate then propagateNode s₃ edge.target.nodeId else s₃
    (s₄, some edge)
  else
    (if optDisableMessage options then s
     else showSystemMessage s connectivity.reason, none)

/-- Modelled from the spec: the port-level connectability test used when a
node searches its own ports — the input side must have free capacity and
the type tags must be compatible.  The edge-level rules (such as the
no-self-loop rule) are enforced later by `checkEdgeConnectivity`. -/
def portConnectable (ctx : Ctx) (sp tp : Port) : Bool :=
  if tp.incidentEdges ≠ [] ∧ tp.multiple = false then false
  else ctx.compatible sp.dataType tp.dataType

/-- Modelled from the spec: `node.findConnectablePort(otherPort)` — the
first port of the node, of direction opposite to `other`, that is
port-level connectable with `other`. -/
def findConnectablePort (ctx : Ctx) (s : DataflowState) (nid : String)
    (other : PortRef) : Option PortRef :=
  match getNode s nid, getPort s other with
  | some n, some op =>
    if other.isInput then
      (n.outputPorts.find? fun p => portConnectable ctx p op).map (outRef n)
    else
      (n.inputPorts.find? fun p => portConnectable ctx op p).map (inRef n)
  | _, _ => none

/-- `createEdgeToNode`: find the first connectable input port on the target
node; if none, report "cannot find available port to connect" (unless
suppressed) and return null; otherwise delegate to `createEdge`.  Note that
the source passes no options object through to `createEdge`. -/
def createEdgeToNode (ctx : Ctx) (s : DataflowState) (sourcePort : PortRef)
    (targetNodeId : String) (propagate : Bool) (options : Option EdgeOptions) :
    DataflowState × Option Edge :=
  match findConnectablePort ctx s targetNodeId sourcePort with
  | none =>
    (if optDisableMessage options then s
     else showSystemMessage s "cannot find available port to connect", none)
  | some targetPort => createEdge ctx s sourcePort targetPort propagate none

/-- `removeEdge`: detach the edge from both incident ports, optionally
recompute the (former) target node, and destroy the edge object. -/
def removeEdge (s : DataflowState) (edge : Edge) (propagate : Bool) :
    DataflowState :=
  let s₁ := removeIncidentEdge s edge.source edge.eid
  let s₂ := removeIncidentEdge s₁ edge.target edge.eid
  let s₃ := if propagate then propagateNode s₂ edge.target.nodeId else s₂
  { s₃ with edges := s₃.edges.filter (fun e => e.eid ≠ edge.eid) }

/-- `removeNode`: record the output-neighbor set first, remove every
incident edge without per-edge propagation, optionally recompute the
recorded output neighbors, and remove the node from the diagram. -/
def removeNode (s : DataflowState) (nid : String) (propagate : Bool) :
    DataflowState × List Edge :=
  match getNode s nid with
  | none => (s, [])
  | some node =>
    let outputNodes := getOutputNodes s node
    let edgesToRemove := getAllEdges s node
    let s₁ := edgesToRemove.foldl (fun acc e => removeEdge acc e false) s
    let s₂ := if propagate then propagateNodes s₁ outputNodes else s₁
    let s₃ := { s₂ with nodes := s₂.nodes.filter (fun n => n.id ≠ nid) }
    (s₃, edgesToRemove)

/-- `insertNodeOnEdge`: splice `node` into the middle of `edge`.  The old
edge is removed first (so the connectivity check is not defeated by the
stale direct connection), then the two replacement edges are attempted; the
propagation scope depends on which of them was created. -/
def insertNodeOnEdge (ctx : Ctx) (s : DataflowState) (nid : String)
    (edge : Edge) : DataflowState × List Edge × Edge :=
  let edgeSource := edge.source
  let edgeTarget := edge.target
  -- Removes the existing edge first to avoid the connectivity check
  -- failing because of the existing connection.
  let s₁ := removeEdge s edge false
  let nodeOutputPort := findConnectablePort ctx s₁ nid edgeTarget
  let step :=
    match nodeOutputPort with
    | none => (s₁, (none : Option Edge), (none : Option Edge))
    | some outPort =>
      let r₁ := createEdgeToNode ctx s₁ edgeSource nid false
        (some { disableMessage := true })
      let r₂ := createEdge ctx r₁.1 outPort edgeTarget false
        (some { disableMessage := true })
      (r₂.1, r₁.2, r₂.2)
  let s₂ := step.1
  let e₁ := step.2.1
  let e₂ := step.2.2
  let createdEdges := ([e₁, e₂].filterMap id)
  let s₃ := if e₁.isSome then propagatePort s₂ edgeSource else s₂
  let s₄ := if e₂.isSome ∧ e₁.isSome = false then propagateNode s₃ nid else s₃
  (s₄, createdEdges, edge)

/-- Options accepted by `createNode`. -/
structure CreateNodeOptions where
  type : String
  activate : Bool
  dataflowX : Option Int
  dataflowY : Option Int
  dataflowCenterX : Option Int
  dataflowCenterY : Option Int
deriving DecidableEq

/-- The position data extracted by `getNodeDataOnCreate`. -/
structure CreateNodeData where
  x : Int
  y : Int
deriving DecidableEq

/-- `getNodeDataOnCreate`: prefer explicit dataflow coordinates, fall back
to center coordinates, else leave the constructor defaults (0, 0). -/
def getNodeDataOnCreate (options : CreateNodeOptions) : CreateNodeData :=
  match options.dataflowX, options.dataflowY with
  | some x, some y => { x := x, y := y }
  | _, _ =>
    match options.dataflowCenterX, options.dataflowCenterY with
    | some x, some y => { x := x, y := y }
    | _, _ => { x := 0, y := 0 }

/-- The string `node-<n>`. -/
def nodeIdStr (n : Nat) : String :=
  "node-" ++ toString n

/-- The scanning loop of `assignNodeId` (`for (let id = 1;; id++)`), made
total with fuel; the fuel is never exhausted because at most
`ids.length` candidates can be taken. -/
def assignNodeIdAux (ids : List String) : Nat → Nat → String
  | 0, id => nodeIdStr id
  | fuel + 1, id =>
    if nodeIdStr id ∈ ids then assignNodeIdAux ids fuel (id + 1)
    else nodeIdStr id

/-- `assignNodeId`: scan upward from 1 for the first unused `node-<n>`. -/
def assignNodeId (s : DataflowState) : String :=
  assignNodeIdAux (s.nodes.map (fun n => n.id)) (s.nodes.length + 1) 1

/-- The persisted record of one node
(`{id, type, layer, ...type-specific fields}`). -/
structure NodeSave where
  id : String
  type : String
  layer : Nat
  x : Int
  y : Int
  stateBlob : String
deriving DecidableEq

/-- The persisted record of one edge. -/
structure EdgeSave where
  sourceNodeId : String
  sourcePortId : String
  targetNodeId : String
  targetPortId : String
deriving DecidableEq

/-- The persisted diagram format. -/
structure DiagramSave where
  diagramName : String
  nodes : List NodeSave
  edges : List EdgeSave
deriving DecidableEq

/-- Build a live port from its registry definition (fresh ports have no
incident edges). -/
def mkPort (d : PortDef) : Port :=
  { portId := d.portId, dataType := d.dataType, multiple := d.multiple
    incidentEdges := [] }

/-- `createNode`: resolve the node-type constructor, assign a fresh id,
instantiate with the optional deserialized record spread over the
constructor data (so a saved id/layer/position overrides the fresh ones),
register the node, and optionally activate and select it.  Returns the
updated state and the created node. -/
def createNode (ctx : Ctx) (s : DataflowState) (options : CreateNodeOptions)
    (nodeSave : Option NodeSave) : DataflowState × Node :=
  let ndef := ctx.registry options.type
  let dataOnCreate := getNodeDataOnCreate options
  let node : Node :=
    { id := match nodeSave with
            | some sv => sv.id          -- the spread `...nodeSave` wins
            | none => assignNodeId s
      nodeType := options.type
      layer := match nodeSave with
               | some sv => sv.layer
               | none => 0
      x := match nodeSave with
           | some sv => sv.x
           | none => dataOnCreate.x
      y := match nodeSave with
           | some sv => sv.y
           | none => dataOnCreate.y
      isSelected := options.activate   -- node.select() when activating
      isActive := options.activate     -- node.activate() when activating
      isPropagationSource := ndef.isPropagationSource
      stateBlob := match nodeSave with
                   | some sv => sv.stateBlob
                   | none => ""
      inputPorts := ndef.inputs.map mkPort
      outputPorts := ndef.outputs.map mkPort }
  ({ s with nodes := s.nodes ++ [node] }, node)

/-- One insertion into the `Set` of affected output nodes: skipped when the
neighbor is itself selected (`_.indexOf(nodes, toNode) === -1` fails) or
already recorded (Set semantics). -/
def addAffected (selectedIds : List String) (acc : List String)
    (toNode : String) : List String :=
  if toNode ∈ selectedIds then acc
  else if toNode ∈ acc then acc
  else acc ++ [toNode]

/-- The affected-output-node set of `removeSelectedNodes`: the union, in
first-insertion order, of the selected nodes' output neighbors that are
not themselves selected. -/
def collectAffected (s : DataflowState) (selectedIds : List String)
    (nodes : List Node) : List String :=
  nodes.foldl (fun acc n =>
    (getOutputNodes s n).foldl (addAffected selectedIds) acc) []

/-- The removal loop of `removeSelectedNodes` (each node removed without
propagation, removed edges concatenated). -/
def removeNodesBatch (t : DataflowState) (nodes : List Node) :
    DataflowState × List Edge :=
  nodes.foldl (fun acc n =>
    let r := removeNode acc.1 n.id false
    (r.1, acc.2 ++ r.2)) (t, ([] : List Edge))

/-- `removeSelectedNodes`: batch-remove every selected node; the output
neighbors that are not themselves selected are recorded first (Set
semantics: first-insertion order, no duplicates) and recomputed once after
the whole batch. -/
def removeSelectedNodes (s : DataflowState) :
    DataflowState × List Node × List Edge :=
  let nodes := s.nodes.filter (fun n => n.isSelected)
  let selectedIds := nodes.map (fun n => n.id)
  let affectedOutputNodes := collectAffected s selectedIds nodes
  let step := removeNodesBatch s nodes
  let s₁ := propagateNodes step.1 affectedOutputNodes
  (s₁, nodes, step.2)

/-- Structural well-formedness of a diagram state: node ids and edge ids
are duplicate-free, every edge runs output→input between ports of two
distinct existing nodes, every port's incident-edge list is exactly the
arena edges at that port, port ids are unique within a node, a
single-connection input holds at most one edge, and the identity counter
is ahead of every live edge. -/
abbrev WFs (s : DataflowState) : Prop :=
  (s.nodes.map (fun n => n.id)).Nodup ∧
  (s.edges.map (fun e => e.eid)).Nodup ∧
  (∀ e ∈ s.edges, e.source.isInput = false ∧ e.target.isInput = true) ∧
  (∀ e ∈ s.edges, e.source.nodeId ≠ e.target.nodeId) ∧
  (∀ e ∈ s.edges, ∃ n ∈ s.nodes, n.id = e.source.nodeId ∧
    ∃ p ∈ n.outputPorts, p.portId = e.source.portId) ∧
  (∀ e ∈ s.edges, ∃ n ∈ s.nodes, n.id = e.target.nodeId ∧
    ∃ p ∈ n.inputPorts, p.portId = e.target.portId) ∧
  (∀ n ∈ s.nodes, ∀ p ∈ n.outputPorts, p.incidentEdges =
    (s.edges.filter (fun e =>
      e.source.nodeId = n.id ∧ e.source.portId = p.portId)).map
        (fun e => e.eid)) ∧
  (∀ n ∈ s.nodes, ∀ p ∈ n.inputPorts, p.incidentEdges =
    (s.edges.filter (fun e =>
      e.target.nodeId = n.id ∧ e.target.portId = p.portId)).map
        (fun e => e.eid)) ∧
  (∀ n ∈ s.nodes, (((n.inputPorts ++ n.outputPorts).map
    (fun p => p.portId))).Nodup) ∧
  (∀ n ∈ s.nodes, ∀ p ∈ n.inputPorts, p.multiple = false →
    p.incidentEdges.length ≤ 1) ∧
  (∀ e ∈ s.edges, e.eid < s.nextEdgeId)

/-- The compatibility half of the connectivity check at an existing edge
(used to state registry-level well-formedness). -/
def compatOk (ctx : Ctx) (s : DataflowState) (e : Edge) : Bool :=
  match getPort s e.source, getPort s e.target with
  | some sp, some tp => ctx.compatible sp.dataType tp.dataType
  | _, _ => false

/-- Registry-level well-formedness: every node's port layout matches its
type's registry entry, the propagation-source flag comes from the
registry, and every live edge joins compatible port types. -/
abbrev WFreg (ctx : Ctx) (s : DataflowState) : Prop :=
  (∀ n ∈ s.nodes,
    n.inputPorts.map portSkel = (ctx.registry n.nodeType).inputs ∧
    n.outputPorts.map portSkel = (ctx.registry n.nodeType).outputs) ∧
  (∀ n ∈ s.nodes,
    n.isPropagationSource = (ctx.registry n.nodeType).isPropagationSource) ∧
  (∀ e ∈ s.edges, compatOk ctx s e = true)

/-- Modelled from the spec: `getInitialState` — the pristine diagram fields
restored by `resetDataflow` (the edge arena is part of the diagram, the
effect logs and the object-identity counter are not). -/
def resetStateFields (s : DataflowState) : DataflowState :=
  { s with nodes := [], edges := [], diagramName := "", numNodeLayers := 0
           isDeserializing := false }

/-- `resetDataflow`: remove every node (over a clone of the node list),
then restore the diagram to its fresh initial state. -/
def resetDataflow (s : DataflowState) : DataflowState :=
  let s₁ := (s.nodes.map (fun n => n.id)).foldl
    (fun acc nid => (removeNode acc nid false).1) s
  resetStateFields s₁

/-- Modelled from the spec: `node.serialize()`. -/
def serializeNode (n : Node) : NodeSave :=
  { id := n.id, type := n.nodeType, layer := n.layer, x := n.x, y := n.y
    stateBlob := n.stateBlob }

/-- Modelled from the spec: `edge.serialize()` — the four endpoint ids. -/
def serializeEdge (e : Edge) : EdgeSave :=
  { sourceNodeId := e.source.nodeId, sourcePortId := e.source.portId
    targetNodeId := e.target.nodeId, targetPortId := e.target.portId }

/-- `serializeDiagram`: serialize the nodes, and the edges by walking each
node's output edges (each edge is reached exactly once, from its source
side). -/
def serializeDiagram (s : DataflowState) : DiagramSave :=
  { diagramName := s.diagramName
    nodes := s.nodes.map serializeNode
    edges := s.nodes.flatMap (fun n => (getOutputEdges s n).map serializeEdge) }

/-- Modelled from the spec: `node.deserialize(save)` — restore the
type-specific state. -/
def deserializeNode (n : Node) (sv : NodeSave) : Node :=
  { n with stateBlob := sv.stateBlob }

/-- `node.deactivate()`. -/
def deactivateNode (n : Node) : Node :=
  { n with isActive := false }

/-- Apply `f` to the node objects with id `nid` (models mutation of the
live node object). -/
def updateNode (s : DataflowState) (nid : String) (f : Node → Node) :
    DataflowState :=
  { s with nodes := s.nodes.map fun n => if n.id = nid then f n else n }

/-- One step of the node-reconstruction loop of `deserializeDiagram`:
create the node from its saved record, deserialize it, deactivate it, and
collect it. -/
def deserializeNodeStep (ctx : Ctx) (acc : DataflowState × List Node)
    (sv : NodeSave) : DataflowState × List Node :=
  let r := createNode ctx acc.1
    { type := sv.type, activate := false, dataflowX := none, dataflowY := none
      dataflowCenterX := none, dataflowCenterY := none } (some sv)
  let node := deactivateNode (deserializeNode r.2 sv)
  let s₁ := updateNode r.1 r.2.id (fun n => deactivateNode (deserializeNode n sv))
  (s₁, acc.2 ++ [node])

/-- One step of the edge-reconstruction loop of `deserializeDiagram`:
resolve the saved endpoint ids to port references and create the edge
without propagation (and without a message-suppression option). -/
def deserializeEdgeStep (ctx : Ctx) (acc : DataflowState) (esave : EdgeSave) :
    DataflowState :=
  (createEdge ctx acc
    { nodeId := esave.sourceNodeId, portId := esave.sourcePortId
      isInput := false }
    { nodeId := esave.targetNodeId, portId := esave.targetPortId
      isInput := true }
    false none).1

/-- `deserializeDiagram`: reset the diagram, suppress propagation,
reconstruct every node from its saved record (deactivating each),
recompute `numNodeLayers` as the max saved layer, reconstruct every edge
without per-edge propagation, clear the suppress flag, and run one batched
propagation from the propagation-source nodes. -/
def deserializeDiagram (ctx : Ctx) (s : DataflowState) (diagram : DiagramSave) :
    DataflowState :=
  let s₀ := resetDataflow s
  let s₁ := { s₀ with isDeserializing := true }
  let step := diagram.nodes.foldl (deserializeNodeStep ctx) (s₁, [])
  let sources := (step.2.filter (fun n => n.isPropagationSource)).map
    (fun n => n.id)
  let s₂ := { step.1 with
    numNodeLayers := (diagram.nodes.map (fun sv => sv.layer)).foldr max 0 }
  let s₃ := diagram.edges.foldl (deserializeEdgeStep ctx) s₂
  let s₄ := { s₃ with isDeserializing := false }
  propagateNodes s₄ sources

/-- The node `deserializeDiagram` reconstructs from one saved record: the
saved identity, type, layer, position and state, deactivated and
deselected, with fresh ports drawn from the registry. -/
def reconNode (ctx : Ctx) (sv : NodeSave) : Node :=
  { id := sv.id, nodeType := sv.type, layer := sv.layer, x := sv.x, y := sv.y
    isSelected := false, isActive := false
    isPropagationSource := (ctx.registry sv.type).isPropagationSource
    stateBlob := sv.stateBlob
    inputPorts := (ctx.registry sv.type).inputs.map mkPort
    outputPorts := (ctx.registry sv.type).outputs.map mkPort }

/-- A live node agrees with a saved record on everything except its
ports' incident-edge lists. -/
def nodeMatches (ctx : Ctx) (n : Node) (sv : NodeSave) : Prop :=
  n.id = sv.id ∧ n.nodeType = sv.type ∧ n.layer = sv.layer ∧
  n.x = sv.x ∧ n.y = sv.y ∧
  n.isPropagationSource = (ctx.registry sv.type).isPropagationSource ∧
  n.inputPorts.map portSkel = (ctx.registry sv.type).inputs ∧
  n.outputPorts.map portSkel = (ctx.registry sv.type).outputs

/-- A saved edge is reconstructible: its endpoints name saved nodes whose
registry layouts provide the referenced output and input ports, the two
nodes are distinct, and the port types are compatible. -/
def esaveOk (ctx : Ctx) (saves : List NodeSave) (es : EdgeSave) : Prop :=
  es.sourceNodeId ≠ es.targetNodeId ∧
  ∃ svs ∈ saves, svs.id = es.sourceNodeId ∧
    ∃ svt ∈ saves, svt.id = es.targetNodeId ∧
      ∃ ps ∈ (ctx.registry svs.type).outputs, ps.portId = es.sourcePortId ∧
        ∃ pt ∈ (ctx.registry svt.type).inputs, pt.portId = es.targetPortId ∧
          ctx.compatible ps.dataType pt.dataType = true

/-- A saved edge list respects capacities: a single-connection input port
is targeted by at most one saved edge. -/
def capOk (ctx : Ctx) (saves : List NodeSave) (esaves : List EdgeSave) :
    Prop :=
  ∀ es ∈ esaves, ∀ svt ∈ saves, svt.id = es.targetNodeId →
    ∀ pt ∈ (ctx.registry svt.type).inputs, pt.portId = es.targetPortId →
      pt.multiple = false →
      (esaves.filter (fun es' => es'.targetNodeId = es.targetNodeId ∧
        es'.targetPortId = es.targetPortId)).length ≤ 1

/-! ### The pointer-interaction state machine (`src/unnamed/part_000`) -/

/-- A port as the interaction manager sees it (`para.port`). -/
structure UIPort where
  id : String
  isInPort : Bool
deriving DecidableEq

/-- An observable call the interaction manager makes into the dataflow /
view managers. -/
inductive UIAction where
  | clearNodeSelection
  | addHoveredToSelection
  | addNodeSelection (nodeId : String)
  | clearEdgeHover
  | createEdgeCall (source target : UIPort)
deriving DecidableEq

/-- A pointer event payload (`event.pageX`, `event.pageY`). -/
structure UIEvent where
  pageX : Int
  pageY : Int
deriving DecidableEq

/-- The payload handed to every handler
(`{type: background|node|port|empty, event, node?, port?}`). -/
structure UIPara where
  type : String
  event : UIEvent
  node : Option String
  port : Option UIPort
deriving DecidableEq

/-- The interaction manager's state, with an action log recording the
intents it emits. -/
structure InteractionState where
  mouseMode : String
  mousedownPos : Int × Int
  mouseupPos : Int × Int
  mouselastPos : Int × Int
  mouseMoved : Bool
  shifted : Bool
  ctrled : Bool
  visualizationBlocking : Bool
  dropPossible : Bool
  dragstartPort : Option UIPort
  actions : List UIAction
deriving DecidableEq

/-- Append an emitted intent to the action log. -/
def emit (st : InteractionState) (a : UIAction) : InteractionState :=
  { st with actions := st.actions ++ [a] }

/-- `keyReleased(key)`: force-release the named modifier keys. -/
def keyReleased (st : InteractionState) (keys : List String) :
    InteractionState :=
  keys.foldl (fun acc key =>
    if key = "shift" then { acc with shifted := false }
    else if key = "ctrl" then
      { acc with ctrled := false, visualizationBlocking := true }
    else acc) st

/-- `mousedownHandler`. -/
def mousedownHandler (st : InteractionState) (para : UIPara) :
    InteractionState :=
  let st := { st with
    mousedownPos := (para.event.pageX, para.event.pageY)
    mouselastPos := (para.event.pageX, para.event.pageY) }
  if st.mouseMode ≠ "none" then st
  else if para.type = "background" then
    if st.ctrled then { st with mouseMode := "pan" }
    else { st with mouseMode := "selectbox" }
  else if para.type = "node" then { st with mouseMode := "node" }
  else st

/-- `clickHandler`: an empty click clears the node selection. -/
def clickHandler (st : InteractionState) (para : UIPara) : InteractionState :=
  if para.type = "empty" then emit st UIAction.clearNodeSelection else st

/-- `mouseupHandler`.  Note the vertical delta is computed as
`mousedownPos[1] - mousedownPos[1]` in the source, exactly as written
there. -/
def mouseupHandler (st : InteractionState) (para : UIPara) :
    InteractionState :=
  let st := { st with mouseupPos := (para.event.pageX, para.event.pageY) }
  let dx := st.mouseupPos.1 - st.mousedownPos.1
  let dy := st.mousedownPos.2 - st.mousedownPos.2
  let st := { st with mouseMoved := decide (dx.natAbs + dy.natAbs > 0) }
  let st :=
    if para.type = "background" then
      if st.mouseMode = "pan" then st
      else if st.mouseMode = "selectbox" then
        if st.mouseMoved = false then
          clickHandler st { type := "empty", event := para.event
                            node := none, port := none }
        else if st.ctrled = false then
          let st := if st.shifted = false then
            emit st UIAction.clearNodeSelection else st
          emit st UIAction.addHoveredToSelection
        else st
      else st
    else if para.type = "node" then
      if st.mouseMoved = false then
        let st := if st.shifted = false then
          emit st UIAction.clearNodeSelection else st
        emit st (UIAction.addNodeSelection (para.node.getD ""))
      else st
    else st
  -- forcefully end all interactions
  let st := keyReleased st ["shift", "ctrl"]
  let st := emit st UIAction.clearEdgeHover
  { st with mouseMode := "none" }

/-- `dropHandler`: when a drop is eligible on a port, normalize the pair
(swap when the drag started at an input port) and invoke edge creation;
eligibility is cleared immediately. -/
def dropHandler (st : InteractionState) (para : UIPara) : InteractionState :=
  if para.type = "port" ∧ st.dropPossible then
    match st.dragstartPort, para.port with
    | some port1, some port2 =>
      -- always connect from out to in, swap
      let pair := if port1.isInPort then (port2, port1) else (port1, port2)
      let st := emit st (UIAction.createEdgeCall pair.1 pair.2)
      { st with dropPossible := false }
    | _, _ => st
  else st

/-! ### Concrete fixtures used by witnesses and counterexamples -/

/-- A small node type: one single-connection input, one output, both of
data type `d`. -/
def regSimple : NodeDef :=
  { inputs := [{ portId := "in1", dataType := "d", multiple := false }]
    outputs := [{ portId := "out1", dataType := "d", multiple := false }]
    isPropagationSource := false }

/-- A context whose compatibility relation accepts everything. -/
def ctxYes : Ctx :=
  { registry := fun _ => regSimple, compatible := fun _ _ => true }

/-- A context whose compatibility relation rejects everything. -/
def ctxNo : Ctx :=
  { registry := fun _ => regSimple, compatible := fun _ _ => false }

/-- A node built from `regSimple` with the given id and incident edges. -/
def mkSimpleNode (nid : String) (sel : Bool) (inEids outEids : List Nat) :
    Node :=
  { id := nid, nodeType := "t", layer := 0, x := 0, y := 0
    isSelected := sel, isActive := false, isPropagationSource := false
    stateBlob := ""
    inputPorts := [{ portId := "in1", dataType := "d", multiple := false
                     incidentEdges := inEids }]
    outputPorts := [{ portId := "out1", dataType := "d", multiple := false
                      incidentEdges := outEids }] }

/-- An empty dataflow state. -/
def emptyState : DataflowState :=
  { nodes := [], edges := [], nextEdgeId := 0, diagramName := ""
    numNodeLayers := 0, isDeserializing := false, propagated := []
    messages := [] }

/-- Two nodes `node-1 → node-2` connected by one edge. -/
def twoNodeState (sel₁ sel₂ : Bool) : DataflowState :=
  { nodes := [mkSimpleNode "node-1" sel₁ [] [7],
              mkSimpleNode "node-2" sel₂ [7] []]
    edges := [{ eid := 7
                source := { nodeId := "node-1", portId := "out1", isInput := false }
                target := { nodeId := "node-2", portId := "in1", isInput := true } }]
    nextEdgeId := 8, diagramName := "", numNodeLayers := 0
    isDeserializing := false, propagated := [], messages := [] }

/-- Two unconnected nodes `node-1`, `node-2` with all ports free. -/
def freshTwoNodes : DataflowState :=
  { emptyState with
    nodes := [mkSimpleNode "node-1" false [] [],
              mkSimpleNode "node-2" false [] []] }

/-- A context for the insert-on-edge scenario: only `d → d` connections
are type-compatible. -/
def insertCtx : Ctx :=
  { registry := fun _ => regSimple
    compatible := fun a b => a = "d" && b = "d" }

/-- The node spliced into the edge in the insert-on-edge scenario: its
input accepts only type `x` (incompatible with the upstream `d` output),
its output produces type `d` (compatible with the downstream input). -/
def spliceNode : Node :=
  { id := "node-3", nodeType := "t", layer := 0, x := 0, y := 0
    isSelected := false, isActive := false, isPropagationSource := false
    stateBlob := ""
    inputPorts := [{ portId := "nin", dataType := "x", multiple := false
                     incidentEdges := [] }]
    outputPorts := [{ portId := "nout", dataType := "d", multiple := false
                      incidentEdges := [] }] }

/-- The edge `node-1.out1 → node-2.in1` of the insert-on-edge scenario. -/
def spliceEdge : Edge :=
  { eid := 7
    source := { nodeId := "node-1", portId := "out1", isInput := false }
    target := { nodeId := "node-2", portId := "in1", isInput := true } }

/-- The insert-on-edge scenario diagram: `node-1 → node-2` plus the
free-standing `node-3`. -/
def spliceState : DataflowState :=
  { nodes := [mkSimpleNode "node-1" false [] [7],
              mkSimpleNode "node-2" false [7] [],
              spliceNode]
    edges := [spliceEdge]
    nextEdgeId := 8, diagramName := "", numNodeLayers := 0
    isDeserializing := false, propagated := [], messages := [] }

/-- A quiescent interaction state in `selectbox` mode with the pointer
down at the origin and no modifier held. -/
def uiBase : InteractionState :=
  { mouseMode := "selectbox", mousedownPos := (0, 0), mouseupPos := (0, 0)
    mouselastPos := (0, 0), mouseMoved := false, shifted := false
    ctrled := false, visualizationBlocking := true, dropPossible := false
    dragstartPort := none, actions := [] }

/-- Decode a list of decimal digit characters back to the number
(left inverse of `Nat.toDigits 10`, used to prove `Nat.repr` injective). -/
def decodeDigits (cs : List Char) : Nat :=
  cs.foldl (fun a c => a * 10 + (c.toNat - 48)) 0

/-- A step of an arbitrary `createNode`/`removeNode` history. -/
inductive DiagramOp where
  | create (options : CreateNodeOptions)
  | remove (nid : String) (propagate : Bool)

/-- Apply one history step. -/
def applyOp (ctx : Ctx) (s : DataflowState) : DiagramOp → DataflowState
  | DiagramOp.create options => (createNode ctx s options none).1
  | DiagramOp.remove nid propagate => (removeNode s nid propagate).1

/-- Run a `createNode`/`removeNode` history. -/
def runOps (ctx : Ctx) (s : DataflowState) (ops : List DiagramOp) :
    DataflowState :=
  ops.foldl (applyOp ctx) s

/-! ### Theorems -/

/-- `toDigitsCore` accumulates: the worked digits are prepended to `ds`. -/
theorem toDigitsCore_acc (fuel : Nat) :
    ∀ (n : Nat) (ds : List Char),
      Nat.toDigitsCore 10 fuel n ds = Nat.toDigitsCore 10 fuel n [] ++ ds := by
  induction fuel with
  | zero => intro n ds; simp [Nat.toDigitsCore]
  | succ fuel ih =>
    intro n ds
    simp only [Nat.toDigitsCore]
    by_cases h : n / 10 = 0
    · simp [h]
    · simp only [h, if_false]
      rw [ih (n / 10) (Nat.digitChar (n % 10) :: ds),
        ih (n / 10) [Nat.digitChar (n % 10)], List.append_assoc]
      rfl

/-- Decoding a digit character of a value below ten recovers the value. -/
theorem digitChar_toNat (m : Nat) (h : m < 10) :
    (Nat.digitChar m).toNat - 48 = m := by
  interval_cases m <;> rfl

/-- `decodeDigits` recovers the number from `toDigitsCore` output, given
adequate fuel. -/
theorem decodeDigits_toDigitsCore :
    ∀ (n fuel : Nat), n < fuel →
      decodeDigits (Nat.toDigitsCore 10 fuel n []) = n := by
  intro n
  induction n using Nat.strong_induction_on with
  | _ n ih =>
    intro fuel hlt
    match fuel, hlt with
    | fuel + 1, hlt =>
      simp only [Nat.toDigitsCore]
      by_cases h : n / 10 = 0
      · have hn : n < 10 := by omega
        simp only [h, if_true]
        simpa [decodeDigits, Nat.mod_eq_of_lt hn] using digitChar_toNat n hn
      · simp only [h, if_false]
        rw [toDigitsCore_acc]
        have hdiv : n / 10 < n := Nat.div_lt_self (by omega) (by omega)
        have hfuel : n / 10 < fuel := by omega
        have hrec := ih (n / 10) hdiv fuel hfuel
        have hmod : n % 10 < 10 := Nat.mod_lt n (by omega)
        calc decodeDigits
              (Nat.toDigitsCore 10 fuel (n / 10) [] ++ [Nat.digitChar (n % 10)])
            = decodeDigits (Nat.toDigitsCore 10 fuel (n / 10) []) * 10 +
                ((Nat.digitChar (n % 10)).toNat - 48) := by
              simp [decodeDigits, List.foldl_append]
          _ = (n / 10) * 10 + n % 10 := by rw [hrec, digitChar_toNat _ hmod]
          _ = n := by omega

/-- `Nat.repr` is injective. -/
theorem natRepr_injective : Function.Injective Nat.repr := by
  intro a b h
  have hdata : (Nat.toDigits 10 a) = (Nat.toDigits 10 b) := by
    have : (Nat.toDigits 10 a).asString.data = (Nat.toDigits 10 b).asString.data := by
      rw [show (Nat.toDigits 10 a).asString = Nat.repr a from rfl,
        show (Nat.toDigits 10 b).asString = Nat.repr b from rfl, h]
    simpa using this
  have ha := decodeDigits_toDigitsCore a (a + 1) (Nat.lt_succ_self a)
  have hb := decodeDigits_toDigitsCore b (b + 1) (Nat.lt_succ_self b)
  rw [show Nat.toDigitsCore 10 (a+1) a [] = Nat.toDigits 10 a from rfl] at ha
  rw [show Nat.toDigitsCore 10 (b+1) b [] = Nat.toDigits 10 b from rfl] at hb
  rw [hdata, hb] at ha
  exact ha.symm

/-- `node-<n>` ids are pairwise distinct across distinct `n`. -/
theorem nodeIdStr_injective : Function.Injective nodeIdStr := by
  intro a b h
  apply natRepr_injective
  apply String.ext
  have hd := congrArg String.data h
  simp only [nodeIdStr, String.data_append] at hd
  exact List.append_cancel_left hd

/-- The scanning loop returns the first fresh candidate, provided one
exists within the fuel. -/
theorem assignNodeIdAux_spec (ids : List String) :
    ∀ (fuel start : Nat),
      (∃ k, k < fuel ∧ nodeIdStr (start + k) ∉ ids) →
      ∃ k, assignNodeIdAux ids fuel start = nodeIdStr (start + k) ∧
        nodeIdStr (start + k) ∉ ids ∧
        ∀ j, j < k → nodeIdStr (start + j) ∈ ids := by
  intro fuel
  induction fuel with
  | zero => intro start h; obtain ⟨k, hk, _⟩ := h; omega
  | succ fuel ih =>
    intro start h
    by_cases h₀ : nodeIdStr start ∈ ids
    · obtain ⟨k, hk, hfresh⟩ := h
      have hkpos : k ≠ 0 := by
        intro h0; rw [h0, Nat.add_zero] at hfresh; exact hfresh h₀
      obtain ⟨k', rfl⟩ : ∃ k', k = k' + 1 := ⟨k - 1, by omega⟩
      have hex : ∃ j, j < fuel ∧ nodeIdStr (start + 1 + j) ∉ ids := by
        refine ⟨k', by omega, ?_⟩
        have : start + 1 + k' = start + (k' + 1) := by omega
        rw [this]; exact hfresh
      obtain ⟨j, heq, hjfresh, hjmin⟩ := ih (start + 1) hex
      refine ⟨j + 1, ?_, ?_, ?_⟩
      · rw [show assignNodeIdAux ids (fuel + 1) start =
          assignNodeIdAux ids fuel (start + 1) by
            simp [assignNodeIdAux, h₀]]
        rw [heq]
        congr 1
        omega
      · have : start + (j + 1) = start + 1 + j := by omega
        rw [this]; exact hjfresh
      · intro i hi
        match i with
        | 0 => simpa using h₀
        | i + 1 =>
          have : start + (i + 1) = start + 1 + i := by omega
          rw [this]
          exact hjmin i (by omega)
    · refine ⟨0, ?_, by simpa using h₀, by omega⟩
      simp [assignNodeIdAux, h₀]

/-- Pigeonhole: among the first `ids.length + 1` candidates starting at 1,
some `node-<n>` is unused. -/
theorem exists_fresh_candidate (ids : List String) :
    ∃ k, k < ids.length + 1 ∧ nodeIdStr (1 + k) ∉ ids := by
  by_contra hall
  push_neg at hall
  have hsub : (List.range (ids.length + 1)).map (fun k => nodeIdStr (1 + k)) ⊆
      ids := by
    intro x hx
    obtain ⟨k, hk, rfl⟩ := List.mem_map.mp hx
    exact hall k (List.mem_range.mp hk)
  have hnodup : ((List.range (ids.length + 1)).map
      (fun k => nodeIdStr (1 + k))).Nodup := by
    refine List.Nodup.map ?_ (List.nodup_range _)
    intro a b hab
    have := nodeIdStr_injective hab
    omega
  have hle := (List.subperm_of_subset hnodup hsub).length_le
  simp at hle

/-- `assignNodeId` returns `node-<n>` for the least positive `n` whose id
is not currently used. -/
theorem assignNodeId_least (s : DataflowState) :
    ∃ n : Nat, 0 < n ∧ assignNodeId s = nodeIdStr n ∧
      nodeIdStr n ∉ s.nodes.map (fun m => m.id) ∧
      ∀ m, 0 < m → m < n → nodeIdStr m ∈ s.nodes.map (fun mm => mm.id) := by
  obtain ⟨k, hk, hfresh⟩ :=
    exists_fresh_candidate (s.nodes.map (fun m => m.id))
  have hlen : (s.nodes.map (fun m => m.id)).length = s.nodes.length := by simp
  obtain ⟨j, heq, hjfresh, hjmin⟩ :=
    assignNodeIdAux_spec (s.nodes.map (fun m => m.id)) (s.nodes.length + 1) 1
      ⟨k, by omega, hfresh⟩
  refine ⟨1 + j, by omega, heq, hjfresh, ?_⟩
  intro m hm hmlt
  have : m = 1 + (m - 1) := by omega
  rw [this]
  exact hjmin (m - 1) (by omega)

/-- Forced modifier release: `keyReleased(["shift","ctrl"])` clears both
flags on any state. -/
theorem keyReleased_shift_ctrl (st : InteractionState) :
    keyReleased st ["shift", "ctrl"] =
      { st with shifted := false, ctrled := false,
                visualizationBlocking := true } := rfl

/-- C9: after every invocation of the mouse-up handler — whatever the mode,
the event target type and the prior modifier flags — the interaction state
has `shifted = false`, `ctrled = false` and `mouseMode = "none"`; no
sequence of pointer events can leave the machine stuck with a modifier
held. -/
theorem mouseupHandler_clears_modifiers_and_mode
    (st : InteractionState) (para : UIPara) :
    (mouseupHandler st para).shifted = false ∧
    (mouseupHandler st para).ctrled = false ∧
    (mouseupHandler st para).mouseMode = "none" := by
  unfold mouseupHandler
  simp only [keyReleased_shift_ctrl, emit]
  simp [clickHandler, emit]

/-- Helper: the failure branch of `createEdge`, shared by several
theorems. -/
theorem createEdge_not_connectable (ctx : Ctx) (s : DataflowState)
    (src tgt : PortRef) (propagate : Bool) (options : Option EdgeOptions)
    (h : (checkEdgeConnectivity ctx s src tgt).connectable = false) :
    (createEdge ctx s src tgt propagate options).2 = none ∧
    (createEdge ctx s src tgt propagate options).1.edges = s.edges ∧
    (createEdge ctx s src tgt propagate options).1.nodes = s.nodes ∧
    (createEdge ctx s src tgt propagate options).1.propagated = s.propagated ∧
    (createEdge ctx s src tgt propagate options).1.messages =
      s.messages ++
        (if optDisableMessage options then []
         else [(checkEdgeConnectivity ctx s src tgt).reason]) := by
  unfold createEdge
  simp only [h, Bool.false_eq_true, if_false]
  constructor
  · trivial
  constructor
  · split <;> simp [showSystemMessage]
  constructor
  · split <;> simp [showSystemMessage]
  constructor
  · split <;> simp [showSystemMessage]
  · split <;> simp [showSystemMessage]

/-- C3: when the connectivity check fails, `createEdge` returns null, the
edge arena, the nodes (hence both ports' incident-edge sets) and the
propagation log are unchanged, and the check's reason is emitted as a
warning unless `options.disableMessage` is set. -/
theorem createEdge_rejected (ctx : Ctx) (s : DataflowState)
    (src tgt : PortRef) (propagate : Bool) (options : Option EdgeOptions)
    (h : (checkEdgeConnectivity ctx s src tgt).connectable = false) :
    (createEdge ctx s src tgt propagate options).2 = none ∧
    (createEdge ctx s src tgt propagate options).1.edges = s.edges ∧
    (createEdge ctx s src tgt propagate options).1.nodes = s.nodes ∧
    (createEdge ctx s src tgt propagate options).1.propagated = s.propagated ∧
    (createEdge ctx s src tgt propagate options).1.messages =
      s.messages ++
        (if optDisableMessage options then []
         else [(checkEdgeConnectivity ctx s src tgt).reason]) :=
  createEdge_not_connectable ctx s src tgt propagate options h

/-- C3 witness: connecting the two ports of one node fails the check and
leaves the diagram untouched, emitting the reason. -/
theorem createEdge_rejected_witness :
    (checkEdgeConnectivity ctxYes (twoNodeState false false)
      { nodeId := "node-1", portId := "out1", isInput := false }
      { nodeId := "node-1", portId := "in1", isInput := true }).connectable
        = false ∧
    (createEdge ctxYes (twoNodeState false false)
      { nodeId := "node-1", portId := "out1", isInput := false }
      { nodeId := "node-1", portId := "in1", isInput := true }
      true none).2 = none ∧
    (createEdge ctxYes (twoNodeState false false)
      { nodeId := "node-1", portId := "out1", isInput := false }
      { nodeId := "node-1", portId := "in1", isInput := true }
      true none).1.messages = ["cannot connect ports of the same node"] := by
  refine ⟨by decide, ?_, ?_⟩
  · exact (createEdge_rejected ctxYes (twoNodeState false false) _ _ true none
      (by decide)).1
  · have h := (createEdge_rejected ctxYes (twoNodeState false false)
      { nodeId := "node-1", portId := "out1", isInput := false }
      { nodeId := "node-1", portId := "in1", isInput := true }
      true none (by decide)).2.2.2.2
    simpa [twoNodeState, optDisableMessage] using h

/-- C7: every edge ever created is stored output→input — `createEdge`
swaps the two ports when the given source is an input port, and the drop
handler swaps the drag's two ports before invoking edge creation when the
drag started at an input port. -/
theorem edge_direction_normalized :
    (∀ (ctx : Ctx) (s : DataflowState) (src tgt : PortRef)
       (propagate : Bool) (options : Option EdgeOptions) (e : Edge),
       src.isInput ≠ tgt.isInput →
       (createEdge ctx s src tgt propagate options).2 = some e →
       e.source.isInput = false ∧ e.target.isInput = true) ∧
    (∀ (st : InteractionState) (para : UIPara) (port1 port2 : UIPort),
       para.type = "port" → st.dropPossible = true →
       st.dragstartPort = some port1 → para.port = some port2 →
       port1.isInPort ≠ port2.isInPort →
       ∃ q₁ q₂ : UIPort,
         (dropHandler st para).actions =
           st.actions ++ [UIAction.createEdgeCall q₁ q₂] ∧
         q₁.isInPort = false ∧ q₂.isInPort = true ∧
         (dropHandler st para).dropPossible = false) := by
  constructor
  · intro ctx s src tgt propagate options e hne he
    unfold createEdge at he
    by_cases hc : (checkEdgeConnectivity ctx s src tgt).connectable = true
    · simp only [hc, if_true, Option.some.injEq] at he
      subst he
      cases hsi : src.isInput <;> cases htg : tgt.isInput
      · rw [hsi, htg] at hne; exact absurd rfl hne
      · simp [hsi, htg]
      · simp [hsi, htg]
      · rw [hsi, htg] at hne; exact absurd rfl hne
    · simp only [hc, if_false] at he
      exact absurd he (by simp)
  · intro st para port1 port2 hty hdp h₁ h₂ hio
    unfold dropHandler
    rw [h₁, h₂]
    simp only [hty, hdp, and_true, true_and, if_true, ite_true]
    cases hp : port1.isInPort
    · refine ⟨port1, port2, ?_⟩
      rw [hp] at hio
      have h₂' : port2.isInPort = true := by
        cases h : port2.isInPort
        · rw [h] at hio; exact absurd rfl hio
        · rfl
      simp [hp, h₂', emit]
    · refine ⟨port2, port1, ?_⟩
      rw [hp] at hio
      have h₂' : port2.isInPort = false := by
        cases h : port2.isInPort
        · rfl
        · rw [h] at hio; exact absurd rfl hio
      simp [hp, h₂', emit]

/-- C7 witness: a concrete edge created input-first is stored
output→input, and a concrete drop that started at an input port swaps the
pair before invoking edge creation. -/
theorem edge_direction_normalized_witness :
    (∃ e : Edge,
      (createEdge ctxYes freshTwoNodes
        { nodeId := "node-2", portId := "in1", isInput := true }
        { nodeId := "node-1", portId := "out1", isInput := false }
        false (some { disableMessage := true })).2 = some e ∧
      e.source.isInput = false ∧ e.target.isInput = true) ∧
    (∃ q₁ q₂ : UIPort,
      (dropHandler
        { uiBase with dropPossible := true
                      dragstartPort := some { id := "p-in", isInPort := true } }
        { type := "port", event := { pageX := 0, pageY := 0 }, node := none
          port := some { id := "p-out", isInPort := false } }).actions =
        uiBase.actions ++ [UIAction.createEdgeCall q₁ q₂] ∧
      q₁.isInPort = false ∧ q₂.isInPort = true) := by
  constructor
  · refine ⟨{ eid := 0
              source := { nodeId := "node-1", portId := "out1", isInput := false }
              target := { nodeId := "node-2", portId := "in1", isInput := true } },
      by decide, ?_⟩
    exact edge_direction_normalized.1 ctxYes freshTwoNodes
      { nodeId := "node-2", portId := "in1", isInput := true }
      { nodeId := "node-1", portId := "out1", isInput := false }
      false (some { disableMessage := true })
      { eid := 0
        source := { nodeId := "node-1", portId := "out1", isInput := false }
        target := { nodeId := "node-2", portId := "in1", isInput := true } }
      (by decide) (by decide)
  · obtain ⟨q₁, q₂, h⟩ := edge_direction_normalized.2
      { uiBase with dropPossible := true
                    dragstartPort := some { id := "p-in", isInPort := true } }
      { type := "port", event := { pageX := 0, pageY := 0 }, node := none
        port := some { id := "p-out", isInPort := false } }
      { id := "p-in", isInPort := true } { id := "p-out", isInPort := false }
      rfl rfl rfl rfl (by decide)
    exact ⟨q₁, q₂, h.1, h.2.1, h.2.2.1⟩

/-- C10: `createEdgeToNode` does not forward its options to `createEdge`:
with `disableMessage` set, a missing connectable port is silent, but a
connectivity failure on the found port still emits the warning with the
check's reason. -/
theorem createEdgeToNode_drops_options :
    (∀ (ctx : Ctx) (s : DataflowState) (src : PortRef) (tnid : String)
       (propagate : Bool),
       findConnectablePort ctx s tnid src = none →
       createEdgeToNode ctx s src tnid propagate
         (some { disableMessage := true }) = (s, none)) ∧
    (∀ (ctx : Ctx) (s : DataflowState) (src : PortRef) (tnid : String)
       (propagate : Bool) (q : PortRef),
       findConnectablePort ctx s tnid src = some q →
       (checkEdgeConnectivity ctx s src q).connectable = false →
       (createEdgeToNode ctx s src tnid propagate
         (some { disableMessage := true })).2 = none ∧
       (createEdgeToNode ctx s src tnid propagate
         (some { disableMessage := true })).1.messages =
         s.messages ++ [(checkEdgeConnectivity ctx s src q).reason]) := by
  constructor
  · intro ctx s src tnid propagate h
    unfold createEdgeToNode
    rw [h]
    simp [optDisableMessage]
  · intro ctx s src tnid propagate q hq hc
    unfold createEdgeToNode
    rw [hq]
    have h := createEdge_not_connectable ctx s src q propagate none hc
    exact ⟨h.1, by simpa [optDisableMessage] using h.2.2.2.2⟩

/-- C10 witness: with everything-incompatible port types, the found target
port fails the check and the warning appears despite
`disableMessage: true`. -/
theorem createEdgeToNode_drops_options_witness :
    (findConnectablePort ctxNo emptyState "node-9"
       { nodeId := "node-1", portId := "out1", isInput := false } = none ∧
     createEdgeToNode ctxNo emptyState
       { nodeId := "node-1", portId := "out1", isInput := false }
       "node-9" false (some { disableMessage := true }) =
       (emptyState, none)) ∧
    (∃ q : PortRef,
      findConnectablePort ctxYes freshTwoNodes "node-1"
        { nodeId := "node-1", portId := "out1", isInput := false } = some q ∧
      (createEdgeToNode ctxYes freshTwoNodes
        { nodeId := "node-1", portId := "out1", isInput := false }
        "node-1" false (some { disableMessage := true })).1.messages =
        ["cannot connect ports of the same node"]) := by
  constructor
  · exact ⟨by decide, createEdgeToNode_drops_options.1 ctxNo emptyState
      { nodeId := "node-1", portId := "out1", isInput := false }
      "node-9" false (by decide)⟩
  · refine ⟨{ nodeId := "node-1", portId := "in1", isInput := true },
      by decide, ?_⟩
    have h := (createEdgeToNode_drops_options.2 ctxYes freshTwoNodes
      { nodeId := "node-1", portId := "out1", isInput := false }
      "node-1" false { nodeId := "node-1", portId := "in1", isInput := true }
      (by decide) (by decide)).2
    simpa [freshTwoNodes, emptyState] using h

/-- C8 counterexample: pointer down at (0,0), up at (0,7) in selectbox mode
with no modifier — the pointer position differs by a nonzero amount in the
vertical axis, so the claim requires the selection to be replaced by the
hovered set (`addHoveredToSelection`), yet the handler computes its
vertical delta as `mousedownPos[1] - mousedownPos[1]` (always zero),
treats the gesture as an empty click, and never touches the hovered set. -/
theorem mouseup_selectbox_counterexample :
    uiBase.mouseMode = "selectbox" ∧ uiBase.ctrled = false ∧
    uiBase.shifted = false ∧
    ((7 : Int), (0 : Int)) ≠ (uiBase.mousedownPos.2, uiBase.mousedownPos.1) ∧
    (mouseupHandler uiBase
      { type := "background", event := { pageX := 0, pageY := 7 }
        node := none, port := none }).actions =
      [UIAction.clearNodeSelection, UIAction.clearEdgeHover] ∧
    UIAction.addHoveredToSelection ∉
      (mouseupHandler uiBase
        { type := "background", event := { pageX := 0, pageY := 7 }
          node := none, port := none }).actions := by
  refine ⟨rfl, rfl, rfl, by decide, by decide, by decide⟩

/-- C8 (amended): for a mouse-up on the background in selectbox mode, the
gesture is treated as an empty click (clearing the selection) iff the
horizontal pointer position at mouse-up equals the one at mouse-down — the
handler's vertical delta is identically zero; when the x-coordinate did
change and `ctrled` is false, the selection is replaced by the hovered set
when `shifted` is false and unioned with it when `shifted` is true. -/
theorem mouseup_selectbox_amended (st : InteractionState) (para : UIPara)
    (hm : st.mouseMode = "selectbox") (ht : para.type = "background") :
    (mouseupHandler st para).actions = st.actions ++
      (if para.event.pageX = st.mousedownPos.1 then
        [UIAction.clearNodeSelection, UIAction.clearEdgeHover]
       else if st.ctrled = false then
         (if st.shifted = false then
           [UIAction.clearNodeSelection, UIAction.addHoveredToSelection,
            UIAction.clearEdgeHover]
          else [UIAction.addHoveredToSelection, UIAction.clearEdgeHover])
       else [UIAction.clearEdgeHover]) := by
  by_cases hx : para.event.pageX = st.mousedownPos.1
  · have hdx : para.event.pageX - st.mousedownPos.1 = 0 := sub_eq_zero.mpr hx
    simp [mouseupHandler, clickHandler, emit, keyReleased_shift_ctrl, hm, ht,
      hx, hdx]
  · have hdx : (para.event.pageX - st.mousedownPos.1).natAbs ≠ 0 :=
      Int.natAbs_ne_zero.mpr (sub_ne_zero.mpr hx)
    by_cases hc : st.ctrled <;> by_cases hs : st.shifted <;>
      simp [mouseupHandler, clickHandler, emit, keyReleased_shift_ctrl, hm, ht,
        hx, hdx, hc, hs, Nat.pos_of_ne_zero]

/-- C8 (amended) witness: a concrete horizontal move with no modifiers
replaces the selection with the hovered set. -/
theorem mouseup_selectbox_amended_witness :
    uiBase.mouseMode = "selectbox" ∧
    (mouseupHandler uiBase
      { type := "background", event := { pageX := 3, pageY := 4 }
        node := none, port := none }).actions =
      [UIAction.clearNodeSelection, UIAction.addHoveredToSelection,
       UIAction.clearEdgeHover] := by
  refine ⟨rfl, ?_⟩
  have h := mouseup_selectbox_amended uiBase
    { type := "background", event := { pageX := 3, pageY := 4 }
      node := none, port := none } rfl rfl
  simpa [uiBase] using h

/-- `updatePort` never changes the node id list. -/
theorem updatePort_nodes_id (s : DataflowState) (r : PortRef) (f : Port → Port) :
    (updatePort s r f).nodes.map (fun n => n.id) =
      s.nodes.map (fun n => n.id) := by
  simp only [updatePort, List.map_map]
  apply List.map_congr_left
  intro n _
  simp only [Function.comp_apply]
  split
  · split <;> rfl
  · rfl

/-- `propagateNode` does not touch the nodes. -/
theorem propagateNode_nodes (s : DataflowState) (nid : String) :
    (propagateNode s nid).nodes = s.nodes := by
  unfold propagateNode; split <;> rfl

/-- `propagateNodes` does not touch the nodes. -/
theorem propagateNodes_nodes (s : DataflowState) (nids : List String) :
    (propagateNodes s nids).nodes = s.nodes := by
  unfold propagateNodes; split <;> rfl

/-- `propagatePort` does not touch the nodes. -/
theorem propagatePort_nodes (s : DataflowState) (r : PortRef) :
    (propagatePort s r).nodes = s.nodes := by
  unfold propagatePort; split <;> rfl

/-- `removeEdge` never changes the node id list. -/
theorem removeEdge_nodes_id (s : DataflowState) (e : Edge) (p : Bool) :
    (removeEdge s e p).nodes.map (fun n => n.id) =
      s.nodes.map (fun n => n.id) := by
  have hbase : (removeIncidentEdge (removeIncidentEdge s e.source e.eid)
      e.target e.eid).nodes.map (fun n => n.id) =
      s.nodes.map (fun n => n.id) := by
    unfold removeIncidentEdge
    rw [updatePort_nodes_id, updatePort_nodes_id]
  cases p
  · exact hbase
  · have hstep : (removeEdge s e true).nodes =
        (propagateNode (removeIncidentEdge (removeIncidentEdge s e.source
          e.eid) e.target e.eid) e.target.nodeId).nodes := rfl
    rw [hstep, propagateNode_nodes]
    exact hbase

/-- A fold of `removeEdge` never changes the node id list. -/
theorem removeEdge_foldl_nodes_id (L : List Edge) :
    ∀ s : DataflowState,
      ((L.foldl (fun acc e => removeEdge acc e false) s).nodes.map
        (fun n => n.id)) = s.nodes.map (fun n => n.id) := by
  induction L with
  | nil => intro s; rfl
  | cons e L ih =>
    intro s
    rw [List.foldl_cons, ih (removeEdge s e false), removeEdge_nodes_id]

/-- `removeNode` preserves uniqueness of node ids. -/
theorem removeNode_preserves_nodup (s : DataflowState) (nid : String)
    (p : Bool) (h : (s.nodes.map (fun n => n.id)).Nodup) :
    (((removeNode s nid p).1.nodes.map (fun n => n.id))).Nodup := by
  unfold removeNode
  match hg : getNode s nid with
  | none => simpa [hg] using h
  | some node =>
    simp only [hg]
    have hfold := removeEdge_foldl_nodes_id (getAllEdges s node) s
    have hprop : ((if p then
        propagateNodes
          ((getAllEdges s node).foldl (fun acc e => removeEdge acc e false) s)
          (getOutputNodes s node)
        else
          ((getAllEdges s node).foldl (fun acc e => removeEdge acc e false) s)
        ).nodes.map (fun n => n.id)).Nodup := by
      split
      · rw [propagateNodes_nodes, hfold]; exact h
      · rw [hfold]; exact h
    refine List.Nodup.sublist
      (List.Sublist.map (fun n : Node => n.id) (List.filter_sublist _)) hprop

/-- `createNode` without a saved record appends a freshly assigned id and
preserves uniqueness of node ids. -/
theorem createNode_preserves_nodup (ctx : Ctx) (s : DataflowState)
    (options : CreateNodeOptions)
    (h : (s.nodes.map (fun n => n.id)).Nodup) :
    (((createNode ctx s options none).1.nodes.map (fun n => n.id))).Nodup := by
  obtain ⟨n, _, heq, hfresh, _⟩ := assignNodeId_least s
  unfold createNode
  simp only [List.map_append, List.map_cons, List.map_nil]
  rw [List.nodup_append]
  refine ⟨h, List.nodup_singleton _, ?_⟩
  intro a ha hb
  simp only [List.mem_singleton] at hb
  subst hb
  rw [heq] at ha
  exact hfresh ha

/-- C6: along every `createNode`/`removeNode` history from the empty
diagram the node ids stay pairwise distinct, and `assignNodeId` always
yields `node-<n>` for the smallest positive `n` not currently in use. -/
theorem node_ids_unique_and_smallest :
    (∀ (ctx : Ctx) (ops : List DiagramOp),
      ((runOps ctx emptyState ops).nodes.map (fun n => n.id)).Nodup) ∧
    (∀ s : DataflowState, ∃ n : Nat, 0 < n ∧
      assignNodeId s = nodeIdStr n ∧
      nodeIdStr n ∉ s.nodes.map (fun m => m.id) ∧
      ∀ m, 0 < m → m < n → nodeIdStr m ∈ s.nodes.map (fun mm => mm.id)) := by
  constructor
  · intro ctx ops
    suffices hgen : ∀ (ops : List DiagramOp) (s : DataflowState),
        (s.nodes.map (fun n => n.id)).Nodup →
        ((runOps ctx s ops).nodes.map (fun n => n.id)).Nodup by
      exact hgen ops emptyState (by simp [emptyState])
    intro ops
    induction ops with
    | nil => intro s h; exact h
    | cons op ops ih =>
      intro s h
      rw [runOps, List.foldl_cons]
      apply ih
      cases op with
      | create options => exact createNode_preserves_nodup ctx s options h
      | remove nid propagate => exact removeNode_preserves_nodup s nid propagate h
  · exact assignNodeId_least

/-- `getNode` returns a member with the looked-up id. -/
theorem getNode_mem_id {s : DataflowState} {nid : String} {n : Node}
    (h : getNode s nid = some n) : n ∈ s.nodes ∧ n.id = nid := by
  unfold getNode at h
  exact ⟨List.mem_of_find?_eq_some h, by simpa using List.find?_some h⟩

/-- With duplicate-free ids, two members with equal ids are equal. -/
theorem node_eq_of_id {s : DataflowState}
    (hno : (s.nodes.map (fun n => n.id)).Nodup) {m n : Node}
    (hm : m ∈ s.nodes) (hn : n ∈ s.nodes) (h : m.id = n.id) : m = n :=
  List.inj_on_of_nodup_map hno hm hn h

/-- With duplicate-free edge ids, `findEdge` resolves a member's id to
that member. -/
theorem findEdge_eq_some {s : DataflowState} {e : Edge}
    (hno : (s.edges.map (fun e => e.eid)).Nodup) (he : e ∈ s.edges) :
    findEdge s e.eid = some e := by
  unfold findEdge
  cases hf : s.edges.find? (fun x => x.eid = e.eid) with
  | none =>
    exfalso
    have := List.find?_eq_none.mp hf e he
    simp at this
  | some x =>
    have hx := List.mem_of_find?_eq_some hf
    have hpx : x.eid = e.eid := by simpa using List.find?_some hf
    rw [List.inj_on_of_nodup_map hno hx he hpx]

/-- What `findEdge` returns is a member carrying the looked-up id. -/
theorem findEdge_mem {s : DataflowState} {eid : Nat} {e : Edge}
    (h : findEdge s eid = some e) : e ∈ s.edges ∧ e.eid = eid := by
  unfold findEdge at h
  exact ⟨List.mem_of_find?_eq_some h, by simpa using List.find?_some h⟩

/-- Under well-formedness, a node's output edges are exactly the arena
edges leaving it. -/
theorem mem_getOutputEdges {s : DataflowState} {n : Node} {e : Edge}
    (hwf : WFs s) (hn : n ∈ s.nodes) :
    e ∈ getOutputEdges s n ↔ e ∈ s.edges ∧ e.source.nodeId = n.id := by
  obtain ⟨hids, heids, _, _, hsrc, _, hout, _, _, _, _⟩ := hwf
  constructor
  · intro he
    unfold getOutputEdges at he
    obtain ⟨eid, heid, hfind⟩ := List.mem_filterMap.mp he
    obtain ⟨hemem, heeq⟩ := findEdge_mem hfind
    obtain ⟨p, hp, hpe⟩ := List.mem_flatMap.mp heid
    rw [hout n hn p hp] at hpe
    obtain ⟨e', he'mem, he'eid⟩ := List.mem_map.mp hpe
    have he'f := List.mem_filter.mp he'mem
    have : e' = e :=
      List.inj_on_of_nodup_map heids he'f.1 hemem (by rw [he'eid, heeq])
    subst this
    have hpred := he'f.2
    simp only [decide_eq_true_eq] at hpred
    exact ⟨hemem, hpred.1⟩
  · intro ⟨hemem, hsrcid⟩
    obtain ⟨m, hm, hmid, q, hq, hqid⟩ := hsrc e hemem
    have hmn : m = n := node_eq_of_id hids hm hn (by rw [hmid, hsrcid])
    subst hmn
    unfold getOutputEdges
    apply List.mem_filterMap.mpr
    refine ⟨e.eid, ?_, findEdge_eq_some heids hemem⟩
    apply List.mem_flatMap.mpr
    refine ⟨q, hq, ?_⟩
    rw [hout m hm q hq]
    apply List.mem_map.mpr
    refine ⟨e, ?_, rfl⟩
    apply List.mem_filter.mpr
    refine ⟨hemem, ?_⟩
    simp only [decide_eq_true_eq]
    exact ⟨hmid.symm, hqid.symm⟩

/-- Under well-formedness, the edges discovered through a node's input
ports are exactly the arena edges entering it. -/
theorem mem_inputIncidentEdges {s : DataflowState} {n : Node} {e : Edge}
    (hwf : WFs s) (hn : n ∈ s.nodes) :
    e ∈ (n.inputPorts.flatMap (fun p => p.incidentEdges)).filterMap
      (findEdge s) ↔ e ∈ s.edges ∧ e.target.nodeId = n.id := by
  obtain ⟨hids, heids, _, _, _, htgt, _, hin, _, _, _⟩ := hwf
  constructor
  · intro he
    obtain ⟨eid, heid, hfind⟩ := List.mem_filterMap.mp he
    obtain ⟨hemem, heeq⟩ := findEdge_mem hfind
    obtain ⟨p, hp, hpe⟩ := List.mem_flatMap.mp heid
    rw [hin n hn p hp] at hpe
    obtain ⟨e', he'mem, he'eid⟩ := List.mem_map.mp hpe
    have he'f := List.mem_filter.mp he'mem
    have : e' = e :=
      List.inj_on_of_nodup_map heids he'f.1 hemem (by rw [he'eid, heeq])
    subst this
    have hpred := he'f.2
    simp only [decide_eq_true_eq] at hpred
    exact ⟨hemem, hpred.1⟩
  · intro ⟨hemem, htgtid⟩
    obtain ⟨m, hm, hmid, q, hq, hqid⟩ := htgt e hemem
    have hmn : m = n := node_eq_of_id hids hm hn (by rw [hmid, htgtid])
    subst hmn
    apply List.mem_filterMap.mpr
    refine ⟨e.eid, ?_, findEdge_eq_some heids hemem⟩
    apply List.mem_flatMap.mpr
    refine ⟨q, hq, ?_⟩
    rw [hin m hm q hq]
    apply List.mem_map.mpr
    refine ⟨e, ?_, rfl⟩
    apply List.mem_filter.mpr
    refine ⟨hemem, ?_⟩
    simp only [decide_eq_true_eq]
    exact ⟨hmid.symm, hqid.symm⟩

/-- Under well-formedness, `getAllEdges` collects exactly the edges
incident to the node. -/
theorem mem_getAllEdges {s : DataflowState} {n : Node} {e : Edge}
    (hwf : WFs s) (hn : n ∈ s.nodes) :
    e ∈ getAllEdges s n ↔
      e ∈ s.edges ∧ (e.source.nodeId = n.id ∨ e.target.nodeId = n.id) := by
  unfold getAllEdges
  rw [List.flatMap_append, List.filterMap_append, List.mem_append]
  constructor
  · intro h
    cases h with
    | inl h =>
      have := (mem_inputIncidentEdges hwf hn).mp h
      exact ⟨this.1, Or.inr this.2⟩
    | inr h =>
      have := (mem_getOutputEdges hwf hn).mp h
      exact ⟨this.1, Or.inl this.2⟩
  · intro ⟨hemem, hor⟩
    cases hor with
    | inl h => exact Or.inr ((mem_getOutputEdges hwf hn).mpr ⟨hemem, h⟩)
    | inr h => exact Or.inl ((mem_inputIncidentEdges hwf hn).mpr ⟨hemem, h⟩)

/-- Under well-formedness, a node's output-neighbor list contains exactly
the targets of the edges leaving it. -/
theorem mem_getOutputNodes {s : DataflowState} {n : Node} {x : String}
    (hwf : WFs s) (hn : n ∈ s.nodes) :
    x ∈ getOutputNodes s n ↔
      ∃ e ∈ s.edges, e.source.nodeId = n.id ∧ e.target.nodeId = x := by
  unfold getOutputNodes
  rw [List.mem_dedup, List.mem_map]
  constructor
  · intro ⟨e, he, hx⟩
    have := (mem_getOutputEdges hwf hn).mp he
    exact ⟨e, this.1, this.2, hx⟩
  · intro ⟨e, he, hsrc, htgt⟩
    exact ⟨e, (mem_getOutputEdges hwf hn).mpr ⟨he, hsrc⟩, htgt⟩

/-- `removeEdge` without propagation: the arena loses the edge, nothing
else changes besides port lists. -/
theorem removeEdge_false_fields (s : DataflowState) (e : Edge) :
    (removeEdge s e false).edges =
      s.edges.filter (fun x => x.eid ≠ e.eid) ∧
    (removeEdge s e false).propagated = s.propagated ∧
    (removeEdge s e false).messages = s.messages ∧
    (removeEdge s e false).isDeserializing = s.isDeserializing ∧
    (removeEdge s e false).nextEdgeId = s.nextEdgeId ∧
    (removeEdge s e false).diagramName = s.diagramName ∧
    (removeEdge s e false).numNodeLayers = s.numNodeLayers :=
  ⟨rfl, rfl, rfl, rfl, rfl, rfl, rfl⟩

/-- Folding `removeEdge` over a list removes exactly the listed edge ids
from the arena. -/
theorem removeEdge_foldl_edges (L : List Edge) :
    ∀ s : DataflowState,
      (L.foldl (fun acc e => removeEdge acc e false) s).edges =
        s.edges.filter
          (fun x => decide (x.eid ∉ L.map (fun e => e.eid))) := by
  induction L with
  | nil => intro s; simp
  | cons e L ih =>
    intro s
    rw [List.foldl_cons, ih, (removeEdge_false_fields s e).1,
      List.filter_filter]
    apply List.filter_congr
    intro x _
    by_cases h₁ : x.eid = e.eid <;> by_cases h₂ : x.eid ∈ L.map (fun e => e.eid) <;>
      simp [h₁, h₂]

/-- Folding `removeEdge` leaves the side fields untouched. -/
theorem removeEdge_foldl_side (L : List Edge) :
    ∀ s : DataflowState,
      (L.foldl (fun acc e => removeEdge acc e false) s).propagated =
        s.propagated ∧
      (L.foldl (fun acc e => removeEdge acc e false) s).messages =
        s.messages ∧
      (L.foldl (fun acc e => removeEdge acc e false) s).isDeserializing =
        s.isDeserializing := by
  induction L with
  | nil => intro s; exact ⟨rfl, rfl, rfl⟩
  | cons e L ih =>
    intro s
    rw [List.foldl_cons]
    have h := ih (removeEdge s e false)
    have hf := removeEdge_false_fields s e
    exact ⟨h.1.trans hf.2.1, h.2.1.trans hf.2.2.1, h.2.2.trans hf.2.2.2.1⟩

/-- Unfolding of `removeNode` when the node exists. -/
theorem removeNode_some (s : DataflowState) (nid : String) (p : Bool)
    (node : Node) (hg : getNode s nid = some node) :
    removeNode s nid p =
      (let s₁ := (getAllEdges s node).foldl
        (fun acc e => removeEdge acc e false) s
       let s₂ := if p then propagateNodes s₁ (getOutputNodes s node) else s₁
       ({ s₂ with nodes := s₂.nodes.filter (fun n => n.id ≠ nid) },
        getAllEdges s node)) := by
  unfold removeNode
  rw [hg]

/-- `propagateNodes` only appends to the propagation log. -/
theorem propagateNodes_fields (s : DataflowState) (nids : List String) :
    (propagateNodes s nids).edges = s.edges ∧
    (propagateNodes s nids).messages = s.messages ∧
    (propagateNodes s nids).propagated =
      s.propagated ++
        (if s.isDeserializing then [] else nids.map PropTarget.node) := by
  unfold propagateNodes
  split <;> simp_all

/-- C2: after `removeNode(n, propagate)` no remaining edge references the
removed node, the removed node is gone from the diagram, the returned
`removedEdges` are exactly the edges that were incident to the node, and
with `propagate` set the propagation log receives exactly the node's
output neighbors as captured before any edge was removed. -/
theorem removeNode_no_dangling (s : DataflowState) (nid : String) (p : Bool)
    (node : Node) (hwf : WFs s) (hg : getNode s nid = some node)
    (hd : s.isDeserializing = false) :
    (∀ e ∈ (removeNode s nid p).1.edges,
      e.source.nodeId ≠ nid ∧ e.target.nodeId ≠ nid) ∧
    (∀ m ∈ (removeNode s nid p).1.nodes, m.id ≠ nid) ∧
    (∀ e, e ∈ (removeNode s nid p).2 ↔
      e ∈ s.edges ∧ (e.source.nodeId = nid ∨ e.target.nodeId = nid)) ∧
    ((removeNode s nid p).1.propagated = s.propagated ++
      (if p then (getOutputNodes s node).map PropTarget.node else [])) ∧
    (∀ x, x ∈ getOutputNodes s node ↔
      ∃ e ∈ s.edges, e.source.nodeId = nid ∧ e.target.nodeId = x) := by
  obtain ⟨hnmem, hnid⟩ := getNode_mem_id hg
  rw [removeNode_some s nid p node hg]
  have hall : ∀ e, e ∈ getAllEdges s node ↔
      e ∈ s.edges ∧ (e.source.nodeId = nid ∨ e.target.nodeId = nid) := by
    intro e
    rw [mem_getAllEdges hwf hnmem, hnid]
  have hfoldE := removeEdge_foldl_edges (getAllEdges s node) s
  have hfoldS := removeEdge_foldl_side (getAllEdges s node) s
  refine ⟨?_, ?_, ?_, ?_, ?_⟩
  · intro e he
    simp only at he
    have he' : e ∈ (if p then
        propagateNodes
          ((getAllEdges s node).foldl (fun acc e => removeEdge acc e false) s)
          (getOutputNodes s node)
        else
          (getAllEdges s node).foldl (fun acc e => removeEdge acc e false) s
        ).edges := he
    have hememS : e ∈ ((getAllEdges s node).foldl
        (fun acc e => removeEdge acc e false) s).edges := by
      by_cases hp : p = true
      · rw [if_pos hp, (propagateNodes_fields _ _).1] at he'
        exact he'
      · rw [if_neg hp] at he'
        exact he'
    rw [hfoldE] at hememS
    have hf := List.mem_filter.mp hememS
    have hnin : e.eid ∉ (getAllEdges s node).map (fun e => e.eid) := by
      simpa using hf.2
    constructor
    · intro hsrc
      apply hnin
      apply List.mem_map.mpr
      exact ⟨e, (hall e).mpr ⟨hf.1, Or.inl hsrc⟩, rfl⟩
    · intro htgt
      apply hnin
      apply List.mem_map.mpr
      exact ⟨e, (hall e).mpr ⟨hf.1, Or.inr htgt⟩, rfl⟩
  · intro m hm
    simp only at hm
    have := (List.mem_filter.mp hm).2
    simpa using this
  · exact hall
  · show (if p then
        propagateNodes
          ((getAllEdges s node).foldl (fun acc e => removeEdge acc e false) s)
          (getOutputNodes s node)
        else
          (getAllEdges s node).foldl (fun acc e => removeEdge acc e false) s
        ).propagated = _
    by_cases hp : p = true
    · rw [if_pos hp, if_pos hp]
      rw [(propagateNodes_fields _ _).2.2, hfoldS.1, hfoldS.2.2, hd]
      simp
    · rw [if_neg hp, if_neg hp]
      rw [hfoldS.1, List.append_nil]
  · intro x
    rw [mem_getOutputNodes hwf hnmem, hnid]

/-- C2 witness: removing `node-1` from the one-edge diagram with
propagation leaves no edge referencing it, returns the single incident
edge, and propagates exactly `node-2`. -/
theorem removeNode_no_dangling_witness :
    WFs (twoNodeState false false) ∧
    (removeNode (twoNodeState false false) "node-1" true).1.edges = [] ∧
    (∀ e ∈ (removeNode (twoNodeState false false) "node-1" true).1.edges,
      e.source.nodeId ≠ "node-1" ∧ e.target.nodeId ≠ "node-1") ∧
    (removeNode (twoNodeState false false) "node-1" true).1.propagated =
      [PropTarget.node "node-2"] := by
  refine ⟨by decide, by decide, ?_, by decide⟩
  exact (removeNode_no_dangling (twoNodeState false false) "node-1" true
    (mkSimpleNode "node-1" false [] [7]) (by decide) (by decide)
    (by decide)).1

/-- Filtering nodes by id and then projecting ids commutes with filtering
the id list. -/
theorem map_filter_comm {α β : Type} (f : α → β) (p : β → Bool)
    (l : List α) :
    (l.filter (fun x => p (f x))).map f = (l.map f).filter p := by
  induction l with
  | nil => rfl
  | cons a l ih =>
    simp only [List.filter_cons, List.map_cons]
    cases hp : p (f a)
    · simp only [hp, Bool.false_eq_true, if_false]
      exact ih
    · simp only [hp, if_true]
      rw [List.map_cons, ih]

/-- Filtering nodes by id and then projecting ids commutes with filtering
the id list. -/
theorem map_id_filter_ne (l : List Node) (nid : String) :
    (l.filter (fun n => n.id ≠ nid)).map (fun n => n.id) =
      (l.map (fun n => n.id)).filter (fun x => x ≠ nid) :=
  map_filter_comm (fun n => n.id) (fun x => decide (x ≠ nid)) l

/-- `removeNode` without propagation removes exactly the given id from the
node id list. -/
theorem removeNode_ids (t : DataflowState) (nid : String) :
    ((removeNode t nid false).1.nodes.map (fun n => n.id)) =
      (t.nodes.map (fun n => n.id)).filter (fun x => x ≠ nid) := by
  cases hg : getNode t nid with
  | none =>
    have hne : ∀ n ∈ t.nodes, ¬(n.id = nid) := by
      intro n hn
      have := List.find?_eq_none.mp hg n hn
      simpa using this
    have hstep : (removeNode t nid false).1 = t := by
      unfold removeNode
      rw [hg]
    rw [hstep]
    symm
    apply List.filter_eq_self.mpr
    intro x hx
    obtain ⟨n, hn, rfl⟩ := List.mem_map.mp hx
    simpa using hne n hn
  | some node =>
    have hshow : (removeNode t nid false).1.nodes =
        (((getAllEdges t node).foldl (fun acc e => removeEdge acc e false)
          t).nodes.filter (fun n => n.id ≠ nid)) := by
      rw [removeNode_some t nid false node hg]
      rfl
    rw [hshow, map_id_filter_ne, removeEdge_foldl_nodes_id]

/-- `removeNode` without propagation leaves the side fields untouched. -/
theorem removeNode_false_side (t : DataflowState) (nid : String) :
    (removeNode t nid false).1.propagated = t.propagated ∧
    (removeNode t nid false).1.messages = t.messages ∧
    (removeNode t nid false).1.isDeserializing = t.isDeserializing := by
  cases hg : getNode t nid with
  | none =>
    have hstep : (removeNode t nid false).1 = t := by
      unfold removeNode
      rw [hg]
    rw [hstep]
    exact ⟨rfl, rfl, rfl⟩
  | some node =>
    have hs := removeEdge_foldl_side (getAllEdges t node) t
    have h₁ : (removeNode t nid false).1.propagated =
        ((getAllEdges t node).foldl (fun acc e => removeEdge acc e false)
          t).propagated := by
      rw [removeNode_some t nid false node hg]
      rfl
    have h₂ : (removeNode t nid false).1.messages =
        ((getAllEdges t node).foldl (fun acc e => removeEdge acc e false)
          t).messages := by
      rw [removeNode_some t nid false node hg]
      rfl
    have h₃ : (removeNode t nid false).1.isDeserializing =
        ((getAllEdges t node).foldl (fun acc e => removeEdge acc e false)
          t).isDeserializing := by
      rw [removeNode_some t nid false node hg]
      rfl
    exact ⟨h₁.trans hs.1, h₂.trans hs.2.1, h₃.trans hs.2.2⟩

/-- The state component of the removal batch is the plain state fold. -/
theorem removeNodesBatch_state (nodes : List Node) :
    ∀ (t : DataflowState) (init : List Edge),
      (nodes.foldl (fun acc n =>
        let r := removeNode acc.1 n.id false
        (r.1, acc.2 ++ r.2)) (t, init)).1 =
      nodes.foldl (fun acc n => (removeNode acc n.id false).1) t := by
  induction nodes with
  | nil => intro t init; rfl
  | cons n nodes ih =>
    intro t init
    rw [List.foldl_cons, List.foldl_cons]
    exact ih (removeNode t n.id false).1 (init ++ (removeNode t n.id false).2)

/-- The state fold of the removal batch removes exactly the listed node
ids. -/
theorem removeNode_foldl_ids (nodes : List Node) :
    ∀ t : DataflowState,
      ((nodes.foldl (fun acc n => (removeNode acc n.id false).1) t).nodes.map
        (fun m => m.id)) =
      (t.nodes.map (fun m => m.id)).filter
        (fun x => decide (x ∉ nodes.map (fun m => m.id))) := by
  induction nodes with
  | nil => intro t; simp
  | cons n nodes ih =>
    intro t
    rw [List.foldl_cons, ih, removeNode_ids, List.filter_filter]
    apply List.filter_congr
    intro x _
    by_cases h₁ : x = n.id <;>
      by_cases h₂ : x ∈ nodes.map (fun m => m.id) <;>
      simp [h₁, h₂]

/-- The state fold of the removal batch leaves the side fields
untouched. -/
theorem removeNode_foldl_side (nodes : List Node) :
    ∀ t : DataflowState,
      ((nodes.foldl (fun acc n => (removeNode acc n.id false).1) t).propagated
        = t.propagated) ∧
      ((nodes.foldl (fun acc n => (removeNode acc n.id false).1) t).messages
        = t.messages) ∧
      ((nodes.foldl (fun acc n =>
        (removeNode acc n.id false).1) t).isDeserializing
        = t.isDeserializing) := by
  induction nodes with
  | nil => intro t; exact ⟨rfl, rfl, rfl⟩
  | cons n nodes ih =>
    intro t
    rw [List.foldl_cons]
    have h := ih (removeNode t n.id false).1
    have hf := removeNode_false_side t n.id
    exact ⟨h.1.trans hf.1, h.2.1.trans hf.2.1, h.2.2.trans hf.2.2⟩

/-- Membership after folding `addAffected`: the accumulator grows by the
non-selected entries of the list. -/
theorem addAffected_foldl_mem (selIds : List String) (l : List String) :
    ∀ (acc : List String) (x : String),
      (x ∈ l.foldl (addAffected selIds) acc ↔
        x ∈ acc ∨ (x ∈ l ∧ x ∉ selIds)) := by
  induction l with
  | nil => intro acc x; simp
  | cons a l ih =>
    intro acc x
    rw [List.foldl_cons, ih]
    unfold addAffected
    by_cases ha : a ∈ selIds
    · rw [if_pos ha]
      constructor
      · rintro (h | h)
        · exact Or.inl h
        · exact Or.inr ⟨List.mem_cons_of_mem a h.1, h.2⟩
      · rintro (h | ⟨hmem, hnin⟩)
        · exact Or.inl h
        · rcases List.mem_cons.mp hmem with rfl | h
          · exact absurd ha hnin
          · exact Or.inr ⟨h, hnin⟩
    · rw [if_neg ha]
      by_cases hacc : a ∈ acc
      · rw [if_pos hacc]
        constructor
        · rintro (h | h)
          · exact Or.inl h
          · exact Or.inr ⟨List.mem_cons_of_mem a h.1, h.2⟩
        · rintro (h | ⟨hmem, hnin⟩)
          · exact Or.inl h
          · rcases List.mem_cons.mp hmem with rfl | h
            · exact Or.inl hacc
            · exact Or.inr ⟨h, hnin⟩
      · rw [if_neg hacc]
        constructor
        · rintro (h | h)
          · rcases List.mem_append.mp h with h | h
            · exact Or.inl h
            · rcases List.mem_singleton.mp h with rfl
              exact Or.inr ⟨List.mem_cons_self _ _, ha⟩
          · exact Or.inr ⟨List.mem_cons_of_mem a h.1, h.2⟩
        · rintro (h | ⟨hmem, hnin⟩)
          · exact Or.inl (List.mem_append.mpr (Or.inl h))
          · rcases List.mem_cons.mp hmem with rfl | h
            · exact Or.inl (List.mem_append.mpr
                (Or.inr (List.mem_singleton.mpr rfl)))
            · exact Or.inr ⟨h, hnin⟩

/-- Membership in the affected-output-node set. -/
theorem mem_collectAffected (s : DataflowState) (selIds : List String)
    (nodes : List Node) (x : String) :
    x ∈ collectAffected s selIds nodes ↔
      (∃ n ∈ nodes, x ∈ getOutputNodes s n) ∧ x ∉ selIds := by
  suffices hgen : ∀ acc : List String,
      (x ∈ nodes.foldl (fun acc n =>
        (getOutputNodes s n).foldl (addAffected selIds) acc) acc ↔
        x ∈ acc ∨ ((∃ n ∈ nodes, x ∈ getOutputNodes s n) ∧ x ∉ selIds)) by
    have := hgen []
    simpa [collectAffected] using this
  induction nodes with
  | nil => intro acc; simp
  | cons n nodes ih =>
    intro acc
    rw [List.foldl_cons, ih, addAffected_foldl_mem]
    constructor
    · rintro ((h | h) | ⟨⟨m, hm, hx⟩, hnin⟩)
      · exact Or.inl h
      · exact Or.inr ⟨⟨n, List.mem_cons_self _ _, h.1⟩, h.2⟩
      · exact Or.inr ⟨⟨m, List.mem_cons_of_mem n hm, hx⟩, hnin⟩
    · rintro (h | ⟨⟨m, hm, hx⟩, hnin⟩)
      · exact Or.inl (Or.inl h)
      · rcases List.mem_cons.mp hm with rfl | hm
        · exact Or.inl (Or.inr ⟨hx, hnin⟩)
        · exact Or.inr ⟨⟨m, hm, hx⟩, hnin⟩

/-- C5: `removeSelectedNodes` removes exactly the selected nodes, and the
propagation log receives — once, after the whole batch — exactly the
selected nodes' output neighbors that are not themselves selected; in
particular removing two connected selected nodes that are each other's
sole neighbor propagates zero nodes. -/
theorem removeSelectedNodes_spec (s : DataflowState) (hwf : WFs s)
    (hd : s.isDeserializing = false) :
    ((removeSelectedNodes s).2.1 = s.nodes.filter (fun n => n.isSelected)) ∧
    (∀ x, x ∈ (removeSelectedNodes s).1.nodes.map (fun n => n.id) ↔
      (x ∈ s.nodes.map (fun n => n.id) ∧
       x ∉ (s.nodes.filter (fun n => n.isSelected)).map (fun n => n.id))) ∧
    ((removeSelectedNodes s).1.propagated = s.propagated ++
      (collectAffected s
        ((s.nodes.filter (fun n => n.isSelected)).map (fun n => n.id))
        (s.nodes.filter (fun n => n.isSelected))).map PropTarget.node) ∧
    (∀ x, x ∈ collectAffected s
        ((s.nodes.filter (fun n => n.isSelected)).map (fun n => n.id))
        (s.nodes.filter (fun n => n.isSelected)) ↔
      ((∃ e ∈ s.edges,
          (∃ n ∈ s.nodes, n.isSelected = true ∧ e.source.nodeId = n.id) ∧
          e.target.nodeId = x) ∧
       x ∉ (s.nodes.filter (fun n => n.isSelected)).map (fun n => n.id))) ∧
    ((removeSelectedNodes (twoNodeState true true)).1.propagated = []) := by
  have hstate : (removeSelectedNodes s).1 =
      propagateNodes
        ((s.nodes.filter (fun n => n.isSelected)).foldl
          (fun acc n => (removeNode acc n.id false).1) s)
        (collectAffected s
          ((s.nodes.filter (fun n => n.isSelected)).map (fun n => n.id))
          (s.nodes.filter (fun n => n.isSelected))) := by
    show propagateNodes (removeNodesBatch s _).1 _ = _
    rw [removeNodesBatch]
    rw [removeNodesBatch_state (s.nodes.filter (fun n => n.isSelected)) s []]
  have hside := removeNode_foldl_side (s.nodes.filter (fun n => n.isSelected)) s
  refine ⟨rfl, ?_, ?_, ?_, by decide⟩
  · intro x
    have hnodes : (removeSelectedNodes s).1.nodes =
        ((s.nodes.filter (fun n => n.isSelected)).foldl
          (fun acc n => (removeNode acc n.id false).1) s).nodes := by
      rw [hstate, propagateNodes_nodes]
    rw [hnodes, removeNode_foldl_ids]
    rw [List.mem_filter]
    simp only [decide_eq_true_eq]
  · rw [hstate, (propagateNodes_fields _ _).2.2, hside.1, hside.2.2, hd]
    simp
  · intro x
    rw [mem_collectAffected]
    constructor
    · intro ⟨⟨n, hn, hx⟩, hnin⟩
      have hnf := List.mem_filter.mp hn
      have := (mem_getOutputNodes hwf hnf.1).mp hx
      obtain ⟨e, he, hsrc, htgt⟩ := this
      refine ⟨⟨e, he, ⟨n, hnf.1, by simpa using hnf.2, hsrc⟩, htgt⟩, hnin⟩
    · intro ⟨⟨e, he, ⟨n, hn, hsel, hsrc⟩, htgt⟩, hnin⟩
      refine ⟨⟨n, List.mem_filter.mpr ⟨hn, by simpa using hsel⟩, ?_⟩, hnin⟩
      exact (mem_getOutputNodes hwf hn).mpr ⟨e, he, hsrc, htgt⟩

/-- C5 witness: with only `node-1` selected in the one-edge diagram, the
batch removes exactly `node-1` and propagates exactly `node-2`. -/
theorem removeSelectedNodes_spec_witness :
    WFs (twoNodeState true false) ∧
    (removeSelectedNodes (twoNodeState true false)).2.1 =
      (twoNodeState true false).nodes.filter (fun n => n.isSelected) ∧
    (removeSelectedNodes (twoNodeState true false)).1.propagated =
      [PropTarget.node "node-2"] := by
  refine ⟨by decide, ?_, ?_⟩
  · exact (removeSelectedNodes_spec (twoNodeState true false) (by decide)
      (by decide)).1
  · have h := (removeSelectedNodes_spec (twoNodeState true false) (by decide)
      (by decide)).2.2.1
    rw [h]
    decide

/-- `addIncidentEdge` only changes port lists. -/
theorem addIncidentEdge_fields (s : DataflowState) (r : PortRef) (eid : Nat) :
    (addIncidentEdge s r eid).edges = s.edges ∧
    (addIncidentEdge s r eid).propagated = s.propagated ∧
    (addIncidentEdge s r eid).messages = s.messages ∧
    (addIncidentEdge s r eid).isDeserializing = s.isDeserializing ∧
    (addIncidentEdge s r eid).nextEdgeId = s.nextEdgeId :=
  ⟨rfl, rfl, rfl, rfl, rfl⟩

/-- `propagateNode` only appends to the propagation log. -/
theorem propagateNode_fields (s : DataflowState) (nid : String) :
    (propagateNode s nid).edges = s.edges ∧
    (propagateNode s nid).messages = s.messages ∧
    (propagateNode s nid).propagated = s.propagated ++
      (if s.isDeserializing then [] else [PropTarget.node nid]) := by
  unfold propagateNode
  split <;> simp_all

/-- `propagatePort` only appends to the propagation log. -/
theorem propagatePort_fields (s : DataflowState) (r : PortRef) :
    (propagatePort s r).edges = s.edges ∧
    (propagatePort s r).messages = s.messages ∧
    (propagatePort s r).propagated = s.propagated ++
      (if s.isDeserializing then [] else [PropTarget.port r]) := by
  unfold propagatePort
  split <;> simp_all

/-- The success branch of `createEdge` (no propagation requested). -/
theorem createEdge_success (ctx : Ctx) (s : DataflowState)
    (src tgt : PortRef) (opts : Option EdgeOptions)
    (h : (checkEdgeConnectivity ctx s src tgt).connectable = true) :
    createEdge ctx s src tgt false opts =
      (let edge : Edge := { eid := s.nextEdgeId,
                            source := if src.isInput = false then src else tgt,
                            target := if src.isInput = false then tgt else src }
       let s₂ := addIncidentEdge (addIncidentEdge s src edge.eid) tgt edge.eid
       ({ s₂ with edges := s₂.edges ++ [edge],
                  nextEdgeId := s₂.nextEdgeId + 1 }, some edge)) := by
  unfold createEdge
  simp only [h, if_true, Bool.false_eq_true, if_false]

/-- `createEdge` without propagation never touches the propagation log or
the deserializing flag. -/
theorem createEdge_false_side (ctx : Ctx) (s : DataflowState)
    (src tgt : PortRef) (opts : Option EdgeOptions) :
    (createEdge ctx s src tgt false opts).1.propagated = s.propagated ∧
    (createEdge ctx s src tgt false opts).1.isDeserializing =
      s.isDeserializing := by
  by_cases h : (checkEdgeConnectivity ctx s src tgt).connectable = true
  · rw [createEdge_success ctx s src tgt opts h]
    exact ⟨rfl, rfl⟩
  · have h' : (checkEdgeConnectivity ctx s src tgt).connectable = false := by
      cases hc : (checkEdgeConnectivity ctx s src tgt).connectable
      · rfl
      · exact absurd hc h
    have hh := createEdge_not_connectable ctx s src tgt false opts h'
    refine ⟨hh.2.2.2.1, ?_⟩
    unfold createEdge
    simp only [h', Bool.false_eq_true, if_false]
    split <;> rfl

/-- A port found for an input reference is an output port of the searched
node. -/
theorem findConnectablePort_output (ctx : Ctx) (s : DataflowState)
    (nid : String) (other p : PortRef) (hother : other.isInput = true)
    (h : findConnectablePort ctx s nid other = some p) :
    p.isInput = false ∧ p.nodeId = nid := by
  unfold findConnectablePort at h
  cases hgn : getNode s nid with
  | none => rw [hgn] at h; cases getPort s other <;> simp at h
  | some n =>
    rw [hgn] at h
    cases hgp : getPort s other with
    | none => rw [hgp] at h; simp at h
    | some op =>
      rw [hgp] at h
      simp only [hother, if_true] at h
      obtain ⟨q, _, hq⟩ := Option.map_eq_some'.mp h
      have hid := (getNode_mem_id hgn).2
      rw [← hq]
      exact ⟨rfl, hid⟩

/-- The `createEdgeToNode` failure case with messages disabled, as used
inside `insertNodeOnEdge`. -/
theorem createEdgeToNode_silent_none (ctx : Ctx) (s : DataflowState)
    (src : PortRef) (tnid : String) (propagate : Bool)
    (h : findConnectablePort ctx s tnid src = none) :
    createEdgeToNode ctx s src tnid propagate
      (some { disableMessage := true }) = (s, none) := by
  unfold createEdgeToNode
  rw [h]
  simp [optDisableMessage]

/-- C4: `insertNodeOnEdge` always reports the original edge as removed;
in the downstream-only scenario (the node's output is connectable to the
old target, no input of the node accepts the old source) exactly one edge
is created — node→target — the old source has no remaining direct edge to
the old target, and the inserted node is propagated; and whenever the
upstream edge was created, only the original source port is propagated. -/
theorem insertNodeOnEdge_spec :
    (∀ (ctx : Ctx) (s : DataflowState) (nid : String) (e : Edge),
      (insertNodeOnEdge ctx s nid e).2.2 = e) ∧
    (∀ (ctx : Ctx) (s : DataflowState) (nid : String) (e : Edge)
       (p : PortRef),
      WFs s → e ∈ s.edges → s.isDeserializing = false →
      nid ≠ e.source.nodeId →
      findConnectablePort ctx (removeEdge s e false) nid e.target = some p →
      findConnectablePort ctx (removeEdge s e false) nid e.source = none →
      (checkEdgeConnectivity ctx (removeEdge s e false) p
        e.target).connectable = true →
      (∀ e' ∈ s.edges, e'.source = e.source → e'.target = e.target →
        e' = e) →
      ∃ ne : Edge,
        (insertNodeOnEdge ctx s nid e).2.1 = [ne] ∧
        ne.source = p ∧ ne.target = e.target ∧
        (∀ e' ∈ (insertNodeOnEdge ctx s nid e).1.edges,
          ¬(e'.source = e.source ∧ e'.target = e.target)) ∧
        (insertNodeOnEdge ctx s nid e).1.propagated =
          s.propagated ++ [PropTarget.node nid]) ∧
    (∀ (ctx : Ctx) (s : DataflowState) (nid : String) (e : Edge)
       (p q : PortRef),
      s.isDeserializing = false →
      findConnectablePort ctx (removeEdge s e false) nid e.target = some p →
      findConnectablePort ctx (removeEdge s e false) nid e.source = some q →
      (checkEdgeConnectivity ctx (removeEdge s e false) e.source
        q).connectable = true →
      (insertNodeOnEdge ctx s nid e).1.propagated =
        s.propagated ++ [PropTarget.port e.source]) := by
  refine ⟨fun ctx s nid e => rfl, ?_, ?_⟩
  · intro ctx s nid e p hwf he hd hna hout hnoIn hconn huniq
    have hdir : e.target.isInput = true := (hwf.2.2.1 e he).2
    have hrm := removeEdge_false_fields s e
    have hpdir := findConnectablePort_output ctx (removeEdge s e false) nid
      e.target p hdir hout
    have hsucc := createEdge_success ctx (removeEdge s e false) p e.target
      (some { disableMessage := true }) hconn
    have hrun : insertNodeOnEdge ctx s nid e =
        (propagateNode
          (createEdge ctx (removeEdge s e false) p e.target false
            (some { disableMessage := true })).1 nid,
         [(createEdge ctx (removeEdge s e false) p e.target false
            (some { disableMessage := true })).2].filterMap id,
         e) := by
      simp only [insertNodeOnEdge]
      rw [hout, createEdgeToNode_silent_none ctx (removeEdge s e false)
        e.source nid false hnoIn]
      simp [hsucc]
    refine ⟨{ eid := (removeEdge s e false).nextEdgeId
              source := if p.isInput = false then p else e.target
              target := if p.isInput = false then e.target else p },
      ?_, ?_, ?_, ?_, ?_⟩
    · rw [hrun, hsucc]
      rfl
    · simp [hpdir.1]
    · simp [hpdir.1]
    · intro e' he' hcontra
      rw [hrun] at he'
      rw [(propagateNode_fields _ _).1] at he'
      rw [hsucc] at he'
      have he'' : e' ∈ (removeEdge s e false).edges ++
          [{ eid := (removeEdge s e false).nextEdgeId
             source := if p.isInput = false then p else e.target
             target := if p.isInput = false then e.target else p }] := he'
      rcases List.mem_append.mp he'' with hin | hin
      · rw [hrm.1] at hin
        have hf := List.mem_filter.mp hin
        have : e' = e := huniq e' hf.1 hcontra.1 hcontra.2
        subst this
        simp at hf
      · rcases List.mem_singleton.mp hin with rfl
        have : (if p.isInput = false then p else e.target) = e.source :=
          hcontra.1
        rw [if_pos hpdir.1] at this
        apply hna
        rw [← this, hpdir.2]
    · rw [hrun]
      have hflag : (createEdge ctx (removeEdge s e false) p e.target false
          (some { disableMessage := true })).1.isDeserializing = false :=
        (createEdge_false_side _ _ _ _ _).2.trans (hrm.2.2.2.1.trans hd)
      rw [(propagateNode_fields _ _).2.2, hflag]
      rw [(createEdge_false_side _ _ _ _ _).1, hrm.2.1]
      simp
  · intro ctx s nid e p q hd hout hin hconnIn
    have hrm := removeEdge_false_fields s e
    have hsucc := createEdge_success ctx (removeEdge s e false) e.source q
      none hconnIn
    have hstep : createEdgeToNode ctx (removeEdge s e false) e.source nid
        false (some { disableMessage := true }) =
        createEdge ctx (removeEdge s e false) e.source q false none := by
      unfold createEdgeToNode
      rw [hin]
    have hrun : insertNodeOnEdge ctx s nid e =
        (propagatePort
          (createEdge ctx
            (createEdge ctx (removeEdge s e false) e.source q false none).1
            p e.target false (some { disableMessage := true })).1 e.source,
         [(createEdge ctx (removeEdge s e false) e.source q false none).2,
          (createEdge ctx
            (createEdge ctx (removeEdge s e false) e.source q false none).1
            p e.target false (some { disableMessage := true })).2].filterMap
              id,
         e) := by
      simp only [insertNodeOnEdge]
      rw [hout, hstep]
      simp [hsucc]
    rw [hrun]
    have hflag₂ : (createEdge ctx
        (createEdge ctx (removeEdge s e false) e.source q false none).1
        p e.target false
          (some { disableMessage := true })).1.isDeserializing = false := by
      rw [(createEdge_false_side _ _ _ _ _).2,
        (createEdge_false_side _ _ _ _ _).2, hrm.2.2.2.1, hd]
    rw [(propagatePort_fields _ _).2.2, hflag₂,
      (createEdge_false_side _ _ _ _ _).1, (createEdge_false_side _ _ _ _ _).1,
      hrm.2.1]
    simp

/-- C4 witness: splicing `node-3` (input type `x`, output type `d`) into
the edge `node-1 → node-2` creates exactly the edge `node-3 → node-2`,
leaves `node-1` with no direct edge to `node-2`, and propagates the
inserted node. -/
theorem insertNodeOnEdge_spec_witness :
    WFs spliceState ∧
    (insertNodeOnEdge insertCtx spliceState "node-3" spliceEdge).2.2 =
      spliceEdge ∧
    (∃ ne : Edge,
      (insertNodeOnEdge insertCtx spliceState "node-3" spliceEdge).2.1 =
        [ne] ∧
      ne.source = { nodeId := "node-3", portId := "nout", isInput := false } ∧
      ne.target = spliceEdge.target) ∧
    (∀ e' ∈ (insertNodeOnEdge insertCtx spliceState "node-3"
        spliceEdge).1.edges,
      ¬(e'.source = spliceEdge.source ∧ e'.target = spliceEdge.target)) ∧
    (insertNodeOnEdge insertCtx spliceState "node-3"
      spliceEdge).1.propagated = [PropTarget.node "node-3"] := by
  obtain ⟨ne, h₁, h₂, h₃, h₄, h₅⟩ :=
    insertNodeOnEdge_spec.2.1 insertCtx spliceState "node-3" spliceEdge
      { nodeId := "node-3", portId := "nout", isInput := false }
      (by decide) (by decide) (by decide) (by decide) (by decide) (by decide)
      (by decide) (by decide)
  exact ⟨by decide,
    insertNodeOnEdge_spec.1 insertCtx spliceState "node-3" spliceEdge,
    ⟨ne, h₁, h₂, h₃⟩, h₄, h₅⟩

/-- Folding `removeNode` over a list of ids leaves the side fields
untouched. -/
theorem removeNodeId_foldl_side (ids : List String) :
    ∀ t : DataflowState,
      ((ids.foldl (fun acc nid => (removeNode acc nid false).1) t).propagated
        = t.propagated) ∧
      ((ids.foldl (fun acc nid => (removeNode acc nid false).1) t).messages
        = t.messages) ∧
      ((ids.foldl (fun acc nid =>
        (removeNode acc nid false).1) t).nextEdgeId = t.nextEdgeId) := by
  induction ids with
  | nil => intro t; exact ⟨rfl, rfl, rfl⟩
  | cons nid ids ih =>
    intro t
    rw [List.foldl_cons]
    have h := ih (removeNode t nid false).1
    have hstep : (removeNode t nid false).1.propagated = t.propagated ∧
        (removeNode t nid false).1.messages = t.messages ∧
        (removeNode t nid false).1.nextEdgeId = t.nextEdgeId := by
      cases hg : getNode t nid with
      | none =>
        have : (removeNode t nid false).1 = t := by
          unfold removeNode; rw [hg]
        rw [this]
        exact ⟨rfl, rfl, rfl⟩
      | some node =>
        have hs := removeEdge_foldl_side (getAllEdges t node) t
        have h₁ : (removeNode t nid false).1.propagated =
            ((getAllEdges t node).foldl (fun acc e => removeEdge acc e false)
              t).propagated := by
          rw [removeNode_some t nid false node hg]
          rfl
        have h₂ : (removeNode t nid false).1.messages =
            ((getAllEdges t node).foldl (fun acc e => removeEdge acc e false)
              t).messages := by
          rw [removeNode_some t nid false node hg]
          rfl
        have hnx : ∀ L : List Edge, ∀ u : DataflowState,
            ((L.foldl (fun acc e => removeEdge acc e false) u).nextEdgeId
              = u.nextEdgeId) := by
          intro L
          induction L with
          | nil => intro u; rfl
          | cons e L ihL =>
            intro u
            rw [List.foldl_cons, ihL (removeEdge u e false),
              (removeEdge_false_fields u e).2.2.2.2.1]
        have h₃ : (removeNode t nid false).1.nextEdgeId =
            ((getAllEdges t node).foldl (fun acc e => removeEdge acc e false)
              t).nextEdgeId := by
          rw [removeNode_some t nid false node hg]
          rfl
        exact ⟨h₁.trans hs.1, h₂.trans hs.2.1,
          h₃.trans (hnx (getAllEdges t node) t)⟩
    exact ⟨h.1.trans hstep.1, h.2.1.trans hstep.2.1, h.2.2.trans hstep.2.2⟩

/-- `resetDataflow` empties the diagram and keeps the effect logs and the
identity counter. -/
theorem resetDataflow_fields (s : DataflowState) :
    (resetDataflow s).nodes = [] ∧ (resetDataflow s).edges = [] ∧
    (resetDataflow s).isDeserializing = false ∧
    (resetDataflow s).propagated = s.propagated ∧
    (resetDataflow s).messages = s.messages := by
  have h := removeNodeId_foldl_side (s.nodes.map (fun n => n.id)) s
  exact ⟨rfl, rfl, rfl, h.1, h.2.1⟩

/-- The reconstructed node agrees with its saved record. -/
theorem reconNode_matches (ctx : Ctx) (sv : NodeSave) :
    nodeMatches ctx (reconNode ctx sv) sv := by
  refine ⟨rfl, rfl, rfl, rfl, rfl, rfl, ?_, ?_⟩ <;>
  · show (List.map mkPort _).map portSkel = _
    rw [List.map_map]
    exact (List.map_congr_left (fun d _ => rfl)).trans (List.map_id _)

/-- One node-reconstruction step, when the saved id is not yet present:
append the reconstructed node. -/
theorem deserializeNodeStep_eq (ctx : Ctx) (t : DataflowState)
    (ns : List Node) (sv : NodeSave)
    (hfresh : sv.id ∉ t.nodes.map (fun n => n.id)) :
    deserializeNodeStep ctx (t, ns) sv =
      ({ t with nodes := t.nodes ++ [reconNode ctx sv] },
       ns ++ [reconNode ctx sv]) := by
  unfold deserializeNodeStep createNode updateNode deserializeNode
    deactivateNode
  simp only [Prod.mk.injEq]
  constructor
  · congr 1
    rw [List.map_append]
    congr 1
    · refine (List.map_congr_left ?_).trans (List.map_id _)
      intro n hn
      have hne : ¬(n.id = sv.id) := fun hcontra =>
        hfresh (List.mem_map.mpr ⟨n, hn, hcontra⟩)
      rw [if_neg hne]
      rfl
    · simp [reconNode]
  · rfl

/-- The node-reconstruction fold appends the reconstructed nodes in
order. -/
theorem deserializeNodeStep_foldl (ctx : Ctx) (saves : List NodeSave) :
    ∀ (t : DataflowState) (ns : List Node),
      (∀ sv ∈ saves, sv.id ∉ t.nodes.map (fun n => n.id)) →
      ((saves.map (fun sv => sv.id)).Nodup) →
      saves.foldl (deserializeNodeStep ctx) (t, ns) =
        ({ t with nodes := t.nodes ++ saves.map (reconNode ctx) },
         ns ++ saves.map (reconNode ctx)) := by
  induction saves with
  | nil => intro t ns _ _; simp
  | cons sv saves ih =>
    intro t ns hfresh hnd
    rw [List.foldl_cons,
      deserializeNodeStep_eq ctx t ns sv (hfresh sv (List.mem_cons_self _ _))]
    rw [ih ({ t with nodes := t.nodes ++ [reconNode ctx sv] })
      (ns ++ [reconNode ctx sv]) ?_ ?_]
    · simp
    · intro sv' hsv'
      simp only [List.map_append]
      rw [List.mem_append]
      rintro (h | h)
      · exact hfresh sv' (List.mem_cons_of_mem sv hsv') h
      · simp only [List.map_cons, List.map_nil, List.mem_singleton] at h
        have : sv'.id ≠ sv.id := by
          have hnd' := List.nodup_cons.mp hnd
          intro hcontra
          exact hnd'.1 (List.mem_map.mpr ⟨sv', hsv', hcontra⟩)
        exact this (by simpa [reconNode] using h)
    · exact (List.nodup_cons.mp hnd).2

/-- Resolving the edge ids of known members returns those members. -/
theorem filterMap_findEdge_map_eid (s : DataflowState)
    (hno : (s.edges.map (fun e => e.eid)).Nodup) (L : List Edge)
    (hL : ∀ x ∈ L, x ∈ s.edges) :
    (L.map (fun e => e.eid)).filterMap (findEdge s) = L := by
  induction L with
  | nil => rfl
  | cons e L ih =>
    rw [List.map_cons, List.filterMap_cons]
    rw [findEdge_eq_some hno (hL e (List.mem_cons_self _ _))]
    rw [ih (fun x hx => hL x (List.mem_cons_of_mem e hx))]

/-- Under well-formedness, a node's output edges are the concatenation,
over its output ports, of the arena edges leaving that port. -/
theorem getOutputEdges_eq (s : DataflowState) (n : Node) (hwf : WFs s)
    (hn : n ∈ s.nodes) :
    getOutputEdges s n = n.outputPorts.flatMap (fun p =>
      s.edges.filter (fun e =>
        e.source.nodeId = n.id ∧ e.source.portId = p.portId)) := by
  obtain ⟨_, heids, _, _, _, _, hout, _, _, _, _⟩ := hwf
  unfold getOutputEdges
  rw [List.filterMap_flatMap]
  apply List.flatMap_congr
  intro p hp
  rw [hout n hn p hp]
  apply filterMap_findEdge_map_eid s heids
  intro x hx
  exact (List.mem_filter.mp hx).1

/-- Summing an indicator over a duplicate-free key list hits its key
exactly once. -/
theorem sum_map_ite_unique {α : Type} (l : List α) (f : α → String)
    (pid : String) (c : Nat) (hnd : (l.map f).Nodup) (hx : pid ∈ l.map f) :
    (l.map (fun p => if f p = pid then c else 0)).sum = c := by
  induction l with
  | nil => simp at hx
  | cons a l ih =>
    rw [List.map_cons] at hnd hx
    have hnd' := List.nodup_cons.mp hnd
    rw [List.map_cons, List.sum_cons]
    by_cases h : f a = pid
    · have hrest : ∀ x ∈ l, ¬(f x = pid) := by
        intro x hxl hcontra
        apply hnd'.1
        rw [h, ← hcontra]
        exact List.mem_map.mpr ⟨x, hxl, rfl⟩
      have hzero : (l.map (fun p => if f p = pid then c else 0)).sum = 0 := by
        rw [List.map_congr_left (fun x hxl => if_neg (hrest x hxl))]
        simp
      rw [if_pos h, hzero]
      rfl
    · rcases List.mem_cons.mp hx with hh | hh
      · exact absurd hh.symm h
      · rw [if_neg h, ih hnd'.2 hh, Nat.zero_add]

/-- Count of an arena member among a node's output edges: one when the
node is its source, zero otherwise. -/
theorem count_getOutputEdges (s : DataflowState) (n : Node) (e : Edge)
    (hwf : WFs s) (hn : n ∈ s.nodes) (he : e ∈ s.edges) :
    List.count e (getOutputEdges s n) =
      if n.id = e.source.nodeId then 1 else 0 := by
  obtain ⟨hids, heids, _, _, hsrc, _, _, _, hports, _, _⟩ := id hwf
  rw [getOutputEdges_eq s n hwf hn, List.count_flatMap]
  have hcount1 : List.count e s.edges = 1 :=
    List.count_eq_one_of_mem (List.Nodup.of_map (fun e => e.eid) heids) he
  have hterm : ∀ p ∈ n.outputPorts,
      List.count e (s.edges.filter (fun x =>
        x.source.nodeId = n.id ∧ x.source.portId = p.portId)) =
      (if n.id = e.source.nodeId then
        (if p.portId = e.source.portId then 1 else 0) else 0) := by
    intro p _
    by_cases h₁ : e.source.nodeId = n.id
    · by_cases h₂ : e.source.portId = p.portId
      · have hpred : (fun x : Edge => decide (x.source.nodeId = n.id ∧
            x.source.portId = p.portId)) e = true := by
          simp [h₁, h₂]
        have hcf := @List.count_filter Edge _ _
          (fun x : Edge => decide (x.source.nodeId = n.id ∧
            x.source.portId = p.portId)) e s.edges hpred
        rw [hcf, hcount1, if_pos h₁.symm, if_pos h₂.symm]
      · rw [if_pos h₁.symm, if_neg (fun hc => h₂ hc.symm)]
        rw [List.count_eq_zero]
        intro hc
        have hmf := (List.mem_filter.mp hc).2
        simp only [decide_eq_true_eq] at hmf
        exact h₂ hmf.2
    · rw [if_neg (fun hc => h₁ hc.symm)]
      rw [List.count_eq_zero]
      intro hc
      have hmf := (List.mem_filter.mp hc).2
      simp only [decide_eq_true_eq] at hmf
      exact h₁ hmf.1
  have hmap : List.map (List.count e ∘ fun p =>
      s.edges.filter (fun x =>
        x.source.nodeId = n.id ∧ x.source.portId = p.portId)) n.outputPorts =
      List.map (fun p => if n.id = e.source.nodeId then
        (if p.portId = e.source.portId then 1 else 0) else 0) n.outputPorts := by
    apply List.map_congr_left
    intro p hp
    rw [Function.comp_apply, hterm p hp]
  rw [hmap]
  by_cases h₁ : n.id = e.source.nodeId
  · rw [if_pos h₁]
    have hpnd : (n.outputPorts.map (fun p => p.portId)).Nodup := by
      have := hports n hn
      rw [List.map_append] at this
      exact (List.nodup_append.mp this).2.1
    obtain ⟨m, hm, hmid, q, hq, hqid⟩ := hsrc e he
    have hmn : m = n := node_eq_of_id hids hm hn (by rw [hmid, ← h₁])
    rw [hmn] at hq
    have hmem : e.source.portId ∈ n.outputPorts.map (fun p => p.portId) :=
      List.mem_map.mpr ⟨q, hq, hqid⟩
    have hmap₂ : List.map (fun p => if n.id = e.source.nodeId then
        (if p.portId = e.source.portId then 1 else 0) else 0) n.outputPorts =
        List.map (fun p => if p.portId = e.source.portId then 1 else 0)
          n.outputPorts := by
      apply List.map_congr_left
      intro p _
      rw [if_pos h₁]
    rw [hmap₂]
    exact sum_map_ite_unique n.outputPorts (fun p => p.portId)
      e.source.portId 1 hpnd hmem
  · rw [if_neg h₁]
    have hmap₂ : List.map (fun p => if n.id = e.source.nodeId then
        (if p.portId = e.source.portId then 1 else 0) else 0) n.outputPorts =
        List.map (fun _ => 0) n.outputPorts := by
      apply List.map_congr_left
      intro p _
      rw [if_neg h₁]
    rw [hmap₂]
    simp

/-- Each arena edge appears exactly once in the node-by-node output-edge
walk; the walk is a permutation of the arena. -/
theorem serialize_walk_perm (s : DataflowState) (hwf : WFs s) :
    (s.nodes.flatMap (fun n => getOutputEdges s n)).Perm s.edges := by
  rw [List.perm_iff_count]
  intro e
  by_cases he : e ∈ s.edges
  · obtain ⟨hids, heids, _, _, hsrc, _, _, _, _, _, _⟩ := id hwf
    rw [List.count_flatMap]
    rw [List.count_eq_one_of_mem (List.Nodup.of_map (fun e => e.eid) heids)
      he]
    have hmap : List.map (List.count e ∘ fun n => getOutputEdges s n)
        s.nodes =
        List.map (fun n => if n.id = e.source.nodeId then 1 else 0)
          s.nodes := by
      apply List.map_congr_left
      intro n hn
      rw [Function.comp_apply, count_getOutputEdges s n e hwf hn he]
    rw [hmap]
    obtain ⟨m, hm, hmid, _, _, _⟩ := hsrc e he
    exact sum_map_ite_unique s.nodes (fun n => n.id) e.source.nodeId 1 hids
      (List.mem_map.mpr ⟨m, hm, hmid⟩)
  · rw [List.count_eq_zero.mpr he, List.count_eq_zero.mpr]
    intro hc
    obtain ⟨n, hn, hcn⟩ := List.mem_flatMap.mp hc
    exact he ((mem_getOutputEdges hwf hn).mp hcn).1

/-- The serialized edge list is the arena, edge by edge, up to order. -/
theorem serializeDiagram_edges_perm (s : DataflowState) (hwf : WFs s) :
    ((serializeDiagram s).edges).Perm (s.edges.map serializeEdge) := by
  have h : (serializeDiagram s).edges =
      (s.nodes.flatMap (fun n => getOutputEdges s n)).map serializeEdge := by
    rw [List.map_flatMap]
    rfl
  rw [h]
  exact (serialize_walk_perm s hwf).map serializeEdge

/-- `getPort` resolves through `getNode` to a member port with the
looked-up id. -/
theorem getPort_mem {s : DataflowState} {r : PortRef} {p : Port}
    (h : getPort s r = some p) :
    ∃ n, getNode s r.nodeId = some n ∧
      p ∈ (if r.isInput then n.inputPorts else n.outputPorts) ∧
      p.portId = r.portId := by
  unfold getPort at h
  cases hg : getNode s r.nodeId with
  | none => rw [hg] at h; simp at h
  | some n =>
    rw [hg] at h
    replace h : (if r.isInput then n.inputPorts else n.outputPorts).find?
        (fun p => p.portId = r.portId) = some p := h
    exact ⟨n, rfl, List.mem_of_find?_eq_some h,
      by simpa using List.find?_some h⟩

/-- The saved node records inherit duplicate-free ids from the diagram. -/
theorem serialize_ids_nodup (s : DataflowState) (hwf : WFs s) :
    (((s.nodes.map serializeNode).map (fun sv => sv.id))).Nodup := by
  rw [List.map_map]
  exact hwf.1

/-- The registry port layouts of the saved nodes carry duplicate-free
port ids. -/
theorem serialize_portNodup (ctx : Ctx) (s : DataflowState) (hwf : WFs s)
    (hreg : WFreg ctx s) :
    ∀ sv ∈ s.nodes.map serializeNode,
      ((((ctx.registry sv.type).inputs ++ (ctx.registry sv.type).outputs).map
        (fun d => d.portId))).Nodup := by
  intro sv hsv
  obtain ⟨n, hn, rfl⟩ := List.mem_map.mp hsv
  have hr := hreg.1 n hn
  have heq : ((ctx.registry (serializeNode n).type).inputs ++
      (ctx.registry (serializeNode n).type).outputs).map (fun d => d.portId) =
      (n.inputPorts ++ n.outputPorts).map (fun p => p.portId) := by
    show ((ctx.registry n.nodeType).inputs ++
      (ctx.registry n.nodeType).outputs).map (fun d => d.portId) = _
    rw [← hr.1, ← hr.2, ← List.map_append, List.map_map]
    rfl
  rw [heq]
  exact hwf.2.2.2.2.2.2.2.2.1 n hn

/-- Every serialized edge is reconstructible from the saved records. -/
theorem serialize_esaveOk (ctx : Ctx) (s : DataflowState) (hwf : WFs s)
    (hreg : WFreg ctx s) :
    ∀ es ∈ (serializeDiagram s).edges,
      esaveOk ctx (s.nodes.map serializeNode) es := by
  intro es hes
  have hmem : es ∈ s.edges.map serializeEdge :=
    (serializeDiagram_edges_perm s hwf).mem_iff.mp hes
  obtain ⟨e, he, rfl⟩ := List.mem_map.mp hmem
  have hdir := hwf.2.2.1 e he
  have hdist := hwf.2.2.2.1 e he
  have hco := hreg.2.2 e he
  unfold compatOk at hco
  cases hsp : getPort s e.source with
  | none => rw [hsp] at hco; cases getPort s e.target <;> simp at hco
  | some sp =>
    cases htp : getPort s e.target with
    | none => rw [hsp, htp] at hco; simp at hco
    | some tp =>
      rw [hsp, htp] at hco
      obtain ⟨ns, hgns, hspmem, hspid⟩ := getPort_mem hsp
      obtain ⟨nt, hgnt, htpmem, htpid⟩ := getPort_mem htp
      rw [hdir.1] at hspmem
      rw [hdir.2] at htpmem
      simp only [if_false, if_true, Bool.false_eq_true] at hspmem htpmem
      obtain ⟨hnsmem, hnsid⟩ := getNode_mem_id hgns
      obtain ⟨hntmem, hntid⟩ := getNode_mem_id hgnt
      refine ⟨hdist, serializeNode ns, List.mem_map.mpr ⟨ns, hnsmem, rfl⟩,
        hnsid, serializeNode nt, List.mem_map.mpr ⟨nt, hntmem, rfl⟩, hntid,
        portSkel sp, ?_, hspid, portSkel tp, ?_, htpid, hco⟩
      · show portSkel sp ∈ (ctx.registry ns.nodeType).outputs
        rw [← (hreg.1 ns hnsmem).2]
        exact List.mem_map.mpr ⟨sp, hspmem, rfl⟩
      · show portSkel tp ∈ (ctx.registry nt.nodeType).inputs
        rw [← (hreg.1 nt hntmem).1]
        exact List.mem_map.mpr ⟨tp, htpmem, rfl⟩

/-- The serialized edge list respects single-connection capacities. -/
theorem serialize_capOk (ctx : Ctx) (s : DataflowState) (hwf : WFs s)
    (hreg : WFreg ctx s) :
    capOk ctx (s.nodes.map serializeNode) (serializeDiagram s).edges := by
  intro es hes svt hsvt hsvtid pt hpt hptid hmul
  obtain ⟨nt, hnt, rfl⟩ := List.mem_map.mp hsvt
  have hr := (hreg.1 nt hnt).1
  have hptmem : pt ∈ nt.inputPorts.map portSkel := by
    rw [hr]
    exact hpt
  obtain ⟨q, hq, hqskel⟩ := List.mem_map.mp hptmem
  have hqmul : q.multiple = false := by
    rw [← hqskel] at hmul
    exact hmul
  have hqid : q.portId = es.targetPortId := by
    rw [← hqskel] at hptid
    exact hptid
  have hcoh := hwf.2.2.2.2.2.2.2.1 nt hnt q hq
  have hcap := hwf.2.2.2.2.2.2.2.2.2.1 nt hnt q hq hqmul
  have hlen : ((serializeDiagram s).edges.filter
      (fun es' => es'.targetNodeId = es.targetNodeId ∧
        es'.targetPortId = es.targetPortId)).length =
      (s.edges.filter (fun e => e.target.nodeId = es.targetNodeId ∧
        e.target.portId = es.targetPortId)).length := by
    rw [← List.countP_eq_length_filter, ← List.countP_eq_length_filter]
    rw [(serializeDiagram_edges_perm s hwf).countP_eq]
    rw [List.countP_map]
    rfl
  rw [hlen]
  have hfe : (s.edges.filter (fun e => e.target.nodeId = es.targetNodeId ∧
      e.target.portId = es.targetPortId)) =
      (s.edges.filter (fun e => e.target.nodeId = nt.id ∧
        e.target.portId = q.portId)) := by
    apply List.filter_congr
    intro x _
    rw [← hsvtid, ← hqid]
    rfl
  rw [hfe]
  have hlen2 : (s.edges.filter (fun e => e.target.nodeId = nt.id ∧
      e.target.portId = q.portId)).length = q.incidentEdges.length := by
    rw [hcoh, List.length_map]
  rw [hlen2]
  exact hcap

/-- Port search commutes with taking skeletons. -/
theorem find?_map_skel (ports : List Port) (pid : String) :
    Option.map portSkel (ports.find? (fun p => p.portId = pid)) =
      (ports.map portSkel).find? (fun d => d.portId = pid) := by
  induction ports with
  | nil => rfl
  | cons p ports ih =>
    by_cases hp : p.portId = pid
    · simp [List.find?_cons, hp, portSkel]
    · simp [List.find?_cons, hp, portSkel, ih]

/-- With duplicate-free port ids, searching for a member's id returns the
member. -/
theorem find?_portDef_eq (defs : List PortDef) (pd : PortDef)
    (hnd : (defs.map (fun d => d.portId)).Nodup) (hmem : pd ∈ defs) :
    defs.find? (fun d => d.portId = pd.portId) = some pd := by
  induction defs with
  | nil => cases hmem
  | cons d defs ih =>
    rw [List.map_cons] at hnd
    have hnd' := List.nodup_cons.mp hnd
    rcases List.mem_cons.mp hmem with rfl | hmem'
    · simp [List.find?_cons]
    · have hne : ¬(d.portId = pd.portId) := by
        intro hc
        apply hnd'.1
        rw [hc]
        exact List.mem_map.mpr ⟨pd, hmem', rfl⟩
      simp [List.find?_cons, hne, ih hnd'.2 hmem']

/-- Matching node lists have equal id lists. -/
theorem forall₂_ids (ctx : Ctx) :
    ∀ {l : List Node} {saves : List NodeSave},
      List.Forall₂ (nodeMatches ctx) l saves →
      l.map (fun n => n.id) = saves.map (fun sv => sv.id) := by
  intro l saves hF
  induction hF with
  | nil => rfl
  | cons h₁ _ ih => simp [h₁.1, ih]

/-- A matching counterpart exists on the left for every member on the
right. -/
theorem forall₂_exists_right (ctx : Ctx) :
    ∀ {l : List Node} {saves : List NodeSave},
      List.Forall₂ (nodeMatches ctx) l saves →
      ∀ sv ∈ saves, ∃ n ∈ l, nodeMatches ctx n sv := by
  intro l saves hF
  induction hF with
  | nil => intro sv hsv; cases hsv
  | cons h₁ _ ih =>
    intro sv hsv
    rcases List.mem_cons.mp hsv with rfl | hsv'
    · exact ⟨_, List.mem_cons_self _ _, h₁⟩
    · obtain ⟨n, hn, hm⟩ := ih sv hsv'
      exact ⟨n, List.mem_cons_of_mem _ hn, hm⟩

/-- Node lookup through a matching: with duplicate-free saved ids, looking
up a saved id returns a node matching that record. -/
theorem find?_node_forall₂ (ctx : Ctx) :
    ∀ {l : List Node} {saves : List NodeSave},
      List.Forall₂ (nodeMatches ctx) l saves →
      (saves.map (fun sv => sv.id)).Nodup →
      ∀ {sv : NodeSave}, sv ∈ saves → ∀ {nid : String}, sv.id = nid →
      ∃ n, l.find? (fun n => n.id = nid) = some n ∧ nodeMatches ctx n sv := by
  intro l saves hF
  induction hF with
  | nil => intro _ _ hsv; cases hsv
  | cons h₁ h₂ ih =>
    rename_i a b l₁ l₂
    intro hnd sv hsv nid hid
    rw [List.map_cons] at hnd
    have hnd' := List.nodup_cons.mp hnd
    rcases List.mem_cons.mp hsv with rfl | hsv'
    · refine ⟨a, ?_, h₁⟩
      have ha : a.id = nid := by rw [h₁.1, hid]
      simp [List.find?_cons, ha]
    · have hbne : ¬(b.id = nid) := by
        intro hc
        apply hnd'.1
        rw [hc, ← hid]
        exact List.mem_map.mpr ⟨sv, hsv', rfl⟩
      have hane : ¬(a.id = nid) := by
        rw [h₁.1]
        exact hbne
      obtain ⟨n, hfind, hm⟩ := ih hnd'.2 hsv' hid
      refine ⟨n, ?_, hm⟩
      simp [List.find?_cons, hane, hfind]

/-- `updatePort` with a skeleton-preserving update keeps the matching. -/
theorem forall₂_updatePort (ctx : Ctx) (t : DataflowState)
    (saves : List NodeSave) (r : PortRef) (f : Port → Port)
    (hskel : ∀ p, portSkel (f p) = portSkel p)
    (hF : List.Forall₂ (nodeMatches ctx) t.nodes saves) :
    List.Forall₂ (nodeMatches ctx) (updatePort t r f).nodes saves := by
  have hpoint : ∀ (n : Node) (sv : NodeSave), nodeMatches ctx n sv →
      ∀ m : Node,
        m.id = n.id → m.nodeType = n.nodeType → m.layer = n.layer →
        m.x = n.x → m.y = n.y →
        m.isPropagationSource = n.isPropagationSource →
        m.inputPorts.map portSkel = n.inputPorts.map portSkel →
        m.outputPorts.map portSkel = n.outputPorts.map portSkel →
        nodeMatches ctx m sv := by
    intro n sv hm m h1 h2 h3 h4 h5 h6 h7 h8
    refine ⟨h1.trans hm.1, h2.trans hm.2.1, h3.trans hm.2.2.1,
      h4.trans hm.2.2.2.1, h5.trans hm.2.2.2.2.1, ?_, ?_, ?_⟩
    · rw [h6]; exact hm.2.2.2.2.2.1
    · rw [h7]; exact hm.2.2.2.2.2.2.1
    · rw [h8]; exact hm.2.2.2.2.2.2.2
  have hmapskel : ∀ ports : List Port,
      (ports.map (fun p => if p.portId = r.portId then f p else p)).map
        portSkel = ports.map portSkel := by
    intro ports
    rw [List.map_map]
    apply List.map_congr_left
    intro p _
    by_cases hp : p.portId = r.portId
    · simp only [Function.comp_apply, if_pos hp]
      exact hskel p
    · simp only [Function.comp_apply, if_neg hp]
  show List.Forall₂ (nodeMatches ctx) (t.nodes.map _) saves
  rw [List.forall₂_map_left_iff]
  apply List.Forall₂.imp ?_ hF
  intro n sv hm
  by_cases hn : n.id = r.nodeId
  · rw [if_pos hn]
    by_cases hi : r.isInput
    · rw [if_pos hi]
      exact hpoint n sv hm _ rfl rfl rfl rfl rfl rfl (hmapskel _) rfl
    · rw [if_neg hi]
      exact hpoint n sv hm _ rfl rfl rfl rfl rfl rfl rfl (hmapskel _)
  · rw [if_neg hn]
    exact hm

/-- Updating an output-side reference leaves every node's id and input
ports unchanged. -/
theorem updatePort_output_inputs (t : DataflowState) (r : PortRef)
    (f : Port → Port) (hr : r.isInput = false) :
    ∀ n' ∈ (updatePort t r f).nodes, ∃ n ∈ t.nodes,
      n'.id = n.id ∧ n'.inputPorts = n.inputPorts := by
  intro n' hn'
  unfold updatePort at hn'
  obtain ⟨n, hn, rfl⟩ := List.mem_map.mp hn'
  refine ⟨n, hn, ?_⟩
  by_cases h : n.id = r.nodeId
  · rw [if_pos h, if_neg (by simp [hr])]
    exact ⟨rfl, rfl⟩
  · rw [if_neg h]
    exact ⟨rfl, rfl⟩

/-- Updating an input-side reference: every node keeps its id, and its
input ports are point-updated exactly at the referenced node and port. -/
theorem updatePort_input_inputs (t : DataflowState) (r : PortRef)
    (f : Port → Port) (hr : r.isInput = true) :
    ∀ n' ∈ (updatePort t r f).nodes, ∃ n ∈ t.nodes,
      n'.id = n.id ∧
      n'.inputPorts = (if n.id = r.nodeId then
        n.inputPorts.map (fun p => if p.portId = r.portId then f p else p)
        else n.inputPorts) := by
  intro n' hn'
  unfold updatePort at hn'
  obtain ⟨n, hn, rfl⟩ := List.mem_map.mp hn'
  refine ⟨n, hn, ?_⟩
  by_cases h : n.id = r.nodeId
  · rw [if_pos h, if_pos (by simp [hr]), if_pos h]
    exact ⟨rfl, rfl⟩
  · rw [if_neg h, if_neg h]
    exact ⟨rfl, rfl⟩

/-- A matching counterpart exists on the right for every member on the
left. -/
theorem forall₂_exists_left (ctx : Ctx) :
    ∀ {l : List Node} {saves : List NodeSave},
      List.Forall₂ (nodeMatches ctx) l saves →
      ∀ n ∈ l, ∃ sv ∈ saves, nodeMatches ctx n sv := by
  intro l saves hF
  induction hF with
  | nil => intro n hn; cases hn
  | cons h₁ _ ih =>
    intro n hn
    rcases List.mem_cons.mp hn with rfl | hn'
    · exact ⟨_, List.mem_cons_self _ _, h₁⟩
    · obtain ⟨sv, hsv, hm⟩ := ih n hn'
      exact ⟨sv, List.mem_cons_of_mem _ hsv, hm⟩

/-- Linking a new edge to its two ports advances the per-port incidence
counts by exactly the new saved edge. -/
theorem counts_after_add (t : DataflowState) (processed : List EdgeSave)
    (es : EdgeSave) (eid : Nat)
    (hcnt : ∀ n ∈ t.nodes, ∀ p ∈ n.inputPorts, p.incidentEdges.length =
      (processed.filter (fun es' => es'.targetNodeId = n.id ∧
        es'.targetPortId = p.portId)).length) :
    ∀ n'' ∈ (addIncidentEdge (addIncidentEdge t
        { nodeId := es.sourceNodeId, portId := es.sourcePortId
          isInput := false } eid)
        { nodeId := es.targetNodeId, portId := es.targetPortId
          isInput := true } eid).nodes,
      ∀ p'' ∈ n''.inputPorts, p''.incidentEdges.length =
        ((processed ++ [es]).filter (fun es' => es'.targetNodeId = n''.id ∧
          es'.targetPortId = p''.portId)).length := by
  intro n'' hn'' p'' hp''
  obtain ⟨n', hn', hid₂, hports₂⟩ := updatePort_input_inputs _
    { nodeId := es.targetNodeId, portId := es.targetPortId, isInput := true }
    _ rfl n'' hn''
  obtain ⟨n, hn, hid₁, hports₁⟩ := updatePort_output_inputs t
    { nodeId := es.sourceNodeId, portId := es.sourcePortId, isInput := false }
    _ rfl n' hn'
  have hid : n''.id = n.id := hid₂.trans hid₁
  rw [hports₁] at hports₂
  rw [List.filter_append, List.length_append]
  by_cases hnid : n'.id = es.targetNodeId
  · rw [if_pos hnid] at hports₂
    rw [hports₂] at hp''
    obtain ⟨p, hp, rfl⟩ := List.mem_map.mp hp''
    have hnid' : n.id = es.targetNodeId := hid₁ ▸ hnid
    by_cases hpid : p.portId = es.targetPortId
    · rw [if_pos hpid]
      have hsingle : ([es].filter (fun es' =>
          es'.targetNodeId = n''.id ∧
          es'.targetPortId = ({ p with incidentEdges :=
            p.incidentEdges ++ [eid] } : Port).portId)).length = 1 := by
        have h₁ : es.targetNodeId = n''.id := by rw [hid, hnid']
        have h₂ : es.targetPortId = p.portId := hpid.symm
        simp [List.filter_cons, h₁, h₂]
      rw [hsingle]
      show (p.incidentEdges ++ [eid]).length = _ + 1
      rw [List.length_append]
      have hproc : (processed.filter (fun es' =>
          es'.targetNodeId = n''.id ∧
          es'.targetPortId = ({ p with incidentEdges :=
            p.incidentEdges ++ [eid] } : Port).portId)).length =
          (processed.filter (fun es' => es'.targetNodeId = n.id ∧
            es'.targetPortId = p.portId)).length := by
        congr 1
        apply List.filter_congr
        intro x _
        rw [hid]
      rw [hproc, ← hcnt n hn p hp]
      rfl
    · rw [if_neg hpid]
      have hzero : ([es].filter (fun es' => es'.targetNodeId = n''.id ∧
          es'.targetPortId = p.portId)).length = 0 := by
        have h₂ : ¬(es.targetPortId = p.portId) := fun hc => hpid hc.symm
        simp [List.filter_cons, h₂]
      rw [hzero, Nat.add_zero]
      have hproc : (processed.filter (fun es' =>
          es'.targetNodeId = n''.id ∧ es'.targetPortId = p.portId)).length =
          (processed.filter (fun es' => es'.targetNodeId = n.id ∧
            es'.targetPortId = p.portId)).length := by
        congr 1
        apply List.filter_congr
        intro x _
        rw [hid]
      rw [hproc]
      exact hcnt n hn p hp
  · rw [if_neg hnid] at hports₂
    rw [hports₂] at hp''
    have hnid' : ¬(n.id = es.targetNodeId) := by
      rw [← hid₁]
      exact hnid
    have hzero : ([es].filter (fun es' => es'.targetNodeId = n''.id ∧
        es'.targetPortId = p''.portId)).length = 0 := by
      have h₁ : ¬(es.targetNodeId = n''.id) := by
        rw [hid]
        exact fun hc => hnid' hc.symm
      simp [List.filter_cons, h₁]
    rw [hzero, Nat.add_zero]
    have hproc : (processed.filter (fun es' =>
        es'.targetNodeId = n''.id ∧ es'.targetPortId = p''.portId)).length =
        (processed.filter (fun es' => es'.targetNodeId = n.id ∧
          es'.targetPortId = p''.portId)).length := by
      congr 1
      apply List.filter_congr
      intro x _
      rw [hid]
    rw [hproc]
    exact hcnt n hn p'' hp''

/-- During edge reconstruction the connectivity check accepts every
reconstructible saved edge whose single-connection target is still
free. -/
theorem deserialize_check_passes (ctx : Ctx) (saves : List NodeSave)
    (t : DataflowState) (es : EdgeSave)
    (hF : List.Forall₂ (nodeMatches ctx) t.nodes saves)
    (hnd : (saves.map (fun sv => sv.id)).Nodup)
    (hpnd : ∀ sv ∈ saves,
      ((((ctx.registry sv.type).inputs ++ (ctx.registry sv.type).outputs).map
        (fun d => d.portId))).Nodup)
    (hok : esaveOk ctx saves es)
    (hfree : ∀ n ∈ t.nodes, ∀ p ∈ n.inputPorts, n.id = es.targetNodeId →
      p.portId = es.targetPortId → p.multiple = false →
      p.incidentEdges = []) :
    (checkEdgeConnectivity ctx t
      { nodeId := es.sourceNodeId, portId := es.sourcePortId
        isInput := false }
      { nodeId := es.targetNodeId, portId := es.targetPortId
        isInput := true }).connectable = true := by
  obtain ⟨hdist, svs, hsvs, hsvsid, svt, hsvt, hsvtid, ps, hps, hpsid,
    pt, hpt, hptid, hcompat⟩ := hok
  obtain ⟨ns, hnsfind, hnsm⟩ := find?_node_forall₂ ctx hF hnd hsvs hsvsid
  obtain ⟨nt, hntfind, hntm⟩ := find?_node_forall₂ ctx hF hnd hsvt hsvtid
  have hnodupS : ((((ctx.registry svs.type).outputs).map
      (fun d => d.portId))).Nodup := by
    have := hpnd svs hsvs
    rw [List.map_append] at this
    exact (List.nodup_append.mp this).2.1
  have hnodupT : ((((ctx.registry svt.type).inputs).map
      (fun d => d.portId))).Nodup := by
    have := hpnd svt hsvt
    rw [List.map_append] at this
    exact (List.nodup_append.mp this).1
  have hfindS := find?_portDef_eq ((ctx.registry svs.type).outputs) ps
    hnodupS hps
  rw [hpsid] at hfindS
  have hskelS := find?_map_skel ns.outputPorts es.sourcePortId
  rw [hnsm.2.2.2.2.2.2.2, hfindS] at hskelS
  obtain ⟨sp, hspfind, hspskel⟩ := Option.map_eq_some'.mp hskelS
  have hfindT := find?_portDef_eq ((ctx.registry svt.type).inputs) pt
    hnodupT hpt
  rw [hptid] at hfindT
  have hskelT := find?_map_skel nt.inputPorts es.targetPortId
  rw [hntm.2.2.2.2.2.2.1, hfindT] at hskelT
  obtain ⟨tp, htpfind, htpskel⟩ := Option.map_eq_some'.mp hskelT
  have hgs : getPort t
      { nodeId := es.sourceNodeId, portId := es.sourcePortId
        isInput := false } = some sp := by
    show (getNode t es.sourceNodeId).bind _ = some sp
    rw [show getNode t es.sourceNodeId = some ns from hnsfind]
    exact hspfind
  have hgt : getPort t
      { nodeId := es.targetNodeId, portId := es.targetPortId
        isInput := true } = some tp := by
    show (getNode t es.targetNodeId).bind _ = some tp
    rw [show getNode t es.targetNodeId = some nt from hntfind]
    exact htpfind
  have htpfree : ¬(tp.incidentEdges ≠ [] ∧ tp.multiple = false) := by
    rintro ⟨hne, hmul⟩
    apply hne
    apply hfree nt (List.mem_of_find?_eq_some hntfind) tp
      (List.mem_of_find?_eq_some htpfind)
    · have := List.find?_some hntfind
      simpa using this
    · have := List.find?_some htpfind
      simpa using this
    · exact hmul
  have hcompat' : ¬(ctx.compatible sp.dataType tp.dataType = false) := by
    have hsd : sp.dataType = ps.dataType := by rw [← hspskel]; rfl
    have htd : tp.dataType = pt.dataType := by rw [← htpskel]; rfl
    rw [hsd, htd, hcompat]
    simp
  have hcheck : checkEdgeConnectivity ctx t
      { nodeId := es.sourceNodeId, portId := es.sourcePortId
        isInput := false }
      { nodeId := es.targetNodeId, portId := es.targetPortId
        isInput := true } = { connectable := true, reason := "" } := by
    unfold checkEdgeConnectivity
    have hdist' : ¬(({ nodeId := es.sourceNodeId, portId := es.sourcePortId, isInput := false } : PortRef).nodeId = ({ nodeId := es.targetNodeId, portId := es.targetPortId, isInput := true } : PortRef).nodeId) := hdist
    rw [if_neg hdist']
    rw [hgs, hgt]
    show (if tp.incidentEdges ≠ [] ∧ tp.multiple = false then _
      else if ctx.compatible sp.dataType tp.dataType = false then _
      else _) = _
    rw [if_neg htpfree, if_neg hcompat']
  rw [hcheck]

/-- The edge-reconstruction fold: starting from reconstructed nodes with
no edges, replaying a reconstructible, capacity-respecting saved edge list
recreates every saved edge (in order) while keeping the node skeletons. -/
theorem deserializeEdges_fold (ctx : Ctx) (saves : List NodeSave)
    (hnd : (saves.map (fun sv => sv.id)).Nodup)
    (hpnd : ∀ sv ∈ saves,
      ((((ctx.registry sv.type).inputs ++ (ctx.registry sv.type).outputs).map
        (fun d => d.portId))).Nodup)
    (esaves : List EdgeSave)
    (hok : ∀ es ∈ esaves, esaveOk ctx saves es)
    (hcap : capOk ctx saves esaves) :
    ∀ (rest processed : List EdgeSave), esaves = processed ++ rest →
    ∀ t : DataflowState,
      List.Forall₂ (nodeMatches ctx) t.nodes saves →
      t.edges.map serializeEdge = processed →
      (∀ n ∈ t.nodes, ∀ p ∈ n.inputPorts, p.incidentEdges.length =
        (processed.filter (fun es' => es'.targetNodeId = n.id ∧
          es'.targetPortId = p.portId)).length) →
      List.Forall₂ (nodeMatches ctx)
        (rest.foldl (deserializeEdgeStep ctx) t).nodes saves ∧
      (rest.foldl (deserializeEdgeStep ctx) t).edges.map serializeEdge =
        esaves := by
  intro rest
  induction rest with
  | nil =>
    intro processed heq t hF hE _
    rw [List.foldl_nil]
    refine ⟨hF, ?_⟩
    rw [hE, heq, List.append_nil]
  | cons es rest ih =>
    intro processed heq t hF hE hC
    rw [List.foldl_cons]
    have hesmem : es ∈ esaves := by
      rw [heq]
      exact List.mem_append.mpr (Or.inr (List.mem_cons_self _ _))
    have hok_es := hok es hesmem
    have hfree : ∀ n ∈ t.nodes, ∀ p ∈ n.inputPorts,
        n.id = es.targetNodeId → p.portId = es.targetPortId →
        p.multiple = false → p.incidentEdges = [] := by
      intro n hn p hp hnid hpid hmul
      obtain ⟨sv, hsv, hm⟩ := forall₂_exists_left ctx hF n hn
      have hsvid : sv.id = es.targetNodeId := hm.1.symm.trans hnid
      have hskel : portSkel p ∈ (ctx.registry sv.type).inputs := by
        rw [← hm.2.2.2.2.2.2.1]
        exact List.mem_map.mpr ⟨p, hp, rfl⟩
      have hcap' := hcap es hesmem sv hsv hsvid (portSkel p) hskel hpid hmul
      have hsplit : (esaves.filter (fun es' =>
          es'.targetNodeId = es.targetNodeId ∧
          es'.targetPortId = es.targetPortId)).length =
          (processed.filter (fun es' => es'.targetNodeId = es.targetNodeId ∧
            es'.targetPortId = es.targetPortId)).length +
          ((es :: rest).filter (fun es' =>
            es'.targetNodeId = es.targetNodeId ∧
            es'.targetPortId = es.targetPortId)).length := by
        rw [heq, List.filter_append, List.length_append]
      have hones : 1 ≤ ((es :: rest).filter (fun es' =>
          es'.targetNodeId = es.targetNodeId ∧
          es'.targetPortId = es.targetPortId)).length := by
        rw [List.filter_cons, if_pos (by simp)]
        simp
      have hproc0 : (processed.filter (fun es' =>
          es'.targetNodeId = es.targetNodeId ∧
          es'.targetPortId = es.targetPortId)).length = 0 := by omega
      have hlen := hC n hn p hp
      rw [hnid, hpid] at hlen
      exact List.length_eq_zero.mp (hlen.trans hproc0)
    have hchk := deserialize_check_passes ctx saves t es hF hnd hpnd hok_es
      hfree
    have hsucc := createEdge_success ctx t
      { nodeId := es.sourceNodeId, portId := es.sourcePortId
        isInput := false }
      { nodeId := es.targetNodeId, portId := es.targetPortId
        isInput := true } none hchk
    have hstep : deserializeEdgeStep ctx t es =
        (createEdge ctx t
          { nodeId := es.sourceNodeId, portId := es.sourcePortId
            isInput := false }
          { nodeId := es.targetNodeId, portId := es.targetPortId
            isInput := true } false none).1 := rfl
    have hF₁ := forall₂_updatePort ctx t saves
      { nodeId := es.sourceNodeId, portId := es.sourcePortId
        isInput := false }
      (fun p => { p with incidentEdges := p.incidentEdges ++ [t.nextEdgeId] })
      (fun p => rfl) hF
    have hF₂ := forall₂_updatePort ctx
      (addIncidentEdge t
        { nodeId := es.sourceNodeId, portId := es.sourcePortId
          isInput := false } t.nextEdgeId) saves
      { nodeId := es.targetNodeId, portId := es.targetPortId
        isInput := true }
      (fun p => { p with incidentEdges := p.incidentEdges ++ [t.nextEdgeId] })
      (fun p => rfl) hF₁
    have hF' : List.Forall₂ (nodeMatches ctx)
        (deserializeEdgeStep ctx t es).nodes saves := by
      rw [hstep, hsucc]
      exact hF₂
    have hE' : (deserializeEdgeStep ctx t es).edges.map serializeEdge =
        processed ++ [es] := by
      rw [hstep, hsucc]
      show ((addIncidentEdge (addIncidentEdge t _ _) _ _).edges ++ _).map
        serializeEdge = _
      rw [(addIncidentEdge_fields _ _ _).1, (addIncidentEdge_fields _ _ _).1]
      rw [List.map_append, hE]
      rfl
    have hC'' := counts_after_add t processed es t.nextEdgeId hC
    have hC' : ∀ n ∈ (deserializeEdgeStep ctx t es).nodes,
        ∀ p ∈ n.inputPorts, p.incidentEdges.length =
        ((processed ++ [es]).filter (fun es' => es'.targetNodeId = n.id ∧
          es'.targetPortId = p.portId)).length := by
      rw [hstep, hsucc]
      exact hC''
    have heq' : esaves = (processed ++ [es]) ++ rest := by
      rw [heq, List.append_assoc]
      rfl
    exact ih (processed ++ [es]) heq' (deserializeEdgeStep ctx t es) hF' hE'
      hC'

/-- `propagateNodes` only logs: it never changes the graph. -/
theorem propagateNodes_graph (s : DataflowState) (nids : List String) :
    (propagateNodes s nids).nodes = s.nodes ∧
    (propagateNodes s nids).edges = s.edges := by
  unfold propagateNodes
  by_cases h : s.isDeserializing = true
  · rw [if_pos h]
    exact ⟨rfl, rfl⟩
  · rw [if_neg h]
    exact ⟨rfl, rfl⟩

/-- Reconstructing each saved record yields a node list matching the
records pointwise. -/
theorem forall₂_reconNode (ctx : Ctx) (L : List NodeSave) :
    List.Forall₂ (nodeMatches ctx) (L.map (reconNode ctx)) L := by
  induction L with
  | nil => exact List.Forall₂.nil
  | cons a L ih => exact List.Forall₂.cons (reconNode_matches ctx a) ih

/-- C1: serializing a well-formed diagram and deserializing the result
reproduces an isomorphic graph — the node id list is unchanged, every
original node reappears with its id, type, layer and position, and the
edge endpoint quadruples (source node/port, target node/port) are the
same up to order. -/
theorem serialize_deserialize_roundtrip (ctx : Ctx) (s : DataflowState)
    (hwf : WFs s) (hreg : WFreg ctx s) :
    (deserializeDiagram ctx s (serializeDiagram s)).nodes.map
      (fun n => n.id) = s.nodes.map (fun n => n.id) ∧
    (∀ n ∈ s.nodes,
      ∃ n' ∈ (deserializeDiagram ctx s (serializeDiagram s)).nodes,
        n'.id = n.id ∧ n'.nodeType = n.nodeType ∧ n'.layer = n.layer ∧
        n'.x = n.x ∧ n'.y = n.y) ∧
    ((deserializeDiagram ctx s (serializeDiagram s)).edges.map
      serializeEdge).Perm (s.edges.map serializeEdge) := by
  have hnd := serialize_ids_nodup s hwf
  have hpnd := serialize_portNodup ctx s hwf hreg
  have hok := serialize_esaveOk ctx s hwf hreg
  have hcap := serialize_capOk ctx s hwf hreg
  have hfold := deserializeNodeStep_foldl ctx (serializeDiagram s).nodes
    { resetDataflow s with isDeserializing := true } []
    (by intro sv _ h; exact List.not_mem_nil _ h) hnd
  have hstep : ∀ (t : DataflowState) (srcs : List String),
      List.Forall₂ (nodeMatches ctx) t.nodes (s.nodes.map serializeNode) →
      t.edges = [] →
      (∀ n ∈ t.nodes, ∀ p ∈ n.inputPorts, p.incidentEdges = []) →
      List.Forall₂ (nodeMatches ctx)
        (propagateNodes
          { ((serializeDiagram s).edges.foldl (deserializeEdgeStep ctx) t)
              with isDeserializing := false } srcs).nodes
        (s.nodes.map serializeNode) ∧
      (propagateNodes
        { ((serializeDiagram s).edges.foldl (deserializeEdgeStep ctx) t)
            with isDeserializing := false } srcs).edges.map serializeEdge =
        (serializeDiagram s).edges := by
    intro t srcs hF ht0 hports
    have hE0 : t.edges.map serializeEdge = [] := by rw [ht0]; rfl
    have hC0 : ∀ n ∈ t.nodes, ∀ p ∈ n.inputPorts, p.incidentEdges.length =
        (([] : List EdgeSave).filter (fun es' => es'.targetNodeId = n.id ∧
          es'.targetPortId = p.portId)).length := by
      intro n hn p hp
      rw [hports n hn p hp]
      rfl
    have hres := deserializeEdges_fold ctx (s.nodes.map serializeNode) hnd
      hpnd (serializeDiagram s).edges hok hcap (serializeDiagram s).edges []
      rfl t hF hE0 hC0
    constructor
    · rw [(propagateNodes_graph _ _).1]
      exact hres.1
    · rw [(propagateNodes_graph _ _).2]
      exact hres.2
  have hkey : List.Forall₂ (nodeMatches ctx)
      (deserializeDiagram ctx s (serializeDiagram s)).nodes
      (s.nodes.map serializeNode) ∧
      (deserializeDiagram ctx s (serializeDiagram s)).edges.map
        serializeEdge = (serializeDiagram s).edges := by
    simp only [deserializeDiagram]
    refine hstep _ _ ?_ ?_ ?_
    · simp only [hfold]
      exact forall₂_reconNode ctx ((serializeDiagram s).nodes)
    · simp only [hfold]
      rfl
    · simp only [hfold]
      intro n hn p hp
      replace hn : n ∈ ((serializeDiagram s).nodes).map (reconNode ctx) := hn
      obtain ⟨sv, hsv, rfl⟩ := List.mem_map.mp hn
      replace hp : p ∈ (ctx.registry sv.type).inputs.map mkPort := hp
      obtain ⟨d, hd, rfl⟩ := List.mem_map.mp hp
      rfl
  refine ⟨?_, ?_, ?_⟩
  · rw [forall₂_ids ctx hkey.1, List.map_map]
    rfl
  · intro n hn
    obtain ⟨n', hn', hm⟩ := forall₂_exists_right ctx hkey.1 (serializeNode n)
      (List.mem_map.mpr ⟨n, hn, rfl⟩)
    exact ⟨n', hn', hm.1, hm.2.1, hm.2.2.1, hm.2.2.2.1, hm.2.2.2.2.1⟩
  · rw [hkey.2]
    exact serializeDiagram_edges_perm s hwf

/-- C1 witness: the round trip on the concrete two-node diagram. -/
theorem serialize_deserialize_roundtrip_witness :
    WFs (twoNodeState false false) ∧
    WFreg ctxYes (twoNodeState false false) ∧
    ((deserializeDiagram ctxYes (twoNodeState false false)
        (serializeDiagram (twoNodeState false false))).nodes.map
      (fun n => n.id) =
      (twoNodeState false false).nodes.map (fun n => n.id) ∧
    (∀ n ∈ (twoNodeState false false).nodes,
      ∃ n' ∈ (deserializeDiagram ctxYes (twoNodeState false false)
        (serializeDiagram (twoNodeState false false))).nodes,
        n'.id = n.id ∧ n'.nodeType = n.nodeType ∧ n'.layer = n.layer ∧
        n'.x = n.x ∧ n'.y = n.y) ∧
    ((deserializeDiagram ctxYes (twoNodeState false false)
        (serializeDiagram (twoNodeState false false))).edges.map
      serializeEdge).Perm
      ((twoNodeState false false).edges.map serializeEdge)) :=
  ⟨by decide, by decide,
    serialize_deserialize_roundtrip ctxYes (twoNodeState false false)
      (by decide) (by decide)⟩

end Visflow
